import Mathlib

/-!
Radiation pattern simulation (`radiationPattern/main.cpp`)

A shallow embedding of the dose-accumulation program: the geometry helpers
(`Point`, `Rect`, `Circle`), the grid accumulator `PointMap`, the two beam
models and the free-fall time loop of `main`.

Conventions of the embedding.

* The definitions are written over any type `α` that has the arithmetic
  operations the code uses.  Two instances matter: a linearly ordered field
  (exact arithmetic; the rationals give executable instances, the reals give
  the instance in which `std::sqrt`, `std::exp` and `M_PI` have their meaning)
  and `Dbl`, the IEEE 754 binary64 arithmetic of the C++ type `double`.
  Results that need a law of arithmetic are stated for ordered fields; results
  that need none are stated for every `α`.  The three `<cmath>` items are
  passed to the Gaussian beam as parameters.
* `uint64_t` counters and flat indices are natural numbers.  `PointMap.new`
  takes the product `rows.size() * cols.size()` without wrap-around;
  `PointMap.new64` computes it modulo `2^64` and is equal to `PointMap.new`
  whenever the product is below `2^64`.
* `new DataType[n]` default-initialises: the cells hold whatever the storage
  held before.  The constructor therefore takes the previous content of the
  storage as an extra argument `heap`.
* `std::for_each(std::execution::par_unseq, ...)` over the rows is modelled
  by the sequential traversal of the same index range; other orders of the
  cell updates are compared with it separately.
* `atof` and `atoi` are parameters of the program `main`.  Standard output is a
  list of lines, each given by what is printed on it; the formatting of
  numbers by the stream is left out.
-/

namespace RadiationPattern

section Definitions

variable {α : Type} [Add α] [Sub α] [Mul α] [Div α] [Neg α] [Zero α] [One α] [NatCast α]
  [LT α] [DecidableRel (fun a b : α => a < b)] [Min α]

/-! ## Geometry -/

/-- The C++ `struct Point`. -/
structure Point (α : Type) where
  x : α
  y : α
deriving DecidableEq, Repr

/-- The free `operator+` on points. -/
def Point.add (a b : Point α) : Point α :=
  ⟨a.x + b.x, a.y + b.y⟩

/-- The free `operator-` on points. -/
def Point.sub (a b : Point α) : Point α :=
  ⟨a.x - b.x, a.y - b.y⟩

/-- The free `operator*(Point, double)`. -/
def Point.scale (a : Point α) (s : α) : Point α :=
  ⟨a.x * s, a.y * s⟩

/-- The free `operator/(Point, double)`, which multiplies by `1/s`. -/
def Point.div (a : Point α) (s : α) : Point α :=
  a.scale (1 / s)

/-- The C++ `struct Rect`: top-left and bottom-right corner. -/
structure Rect (α : Type) where
  tl : Point α
  br : Point α
deriving DecidableEq, Repr

/-- The method `Rect::width`. -/
def Rect.width (r : Rect α) : α := r.br.x - r.tl.x

/-- The method `Rect::height`. -/
def Rect.height (r : Rect α) : α := r.br.y - r.tl.y

/-- The method `Rect::center`, which returns `(tl - br) / 2`. -/
def Rect.center (r : Rect α) : Point α :=
  (r.tl.sub r.br).div 2

/-- The C++ `struct Circle`. -/
structure Circle (α : Type) where
  center : Point α
  radius : α
deriving DecidableEq, Repr

/-- The method `Circle::contains`: strict interior test. -/
def Circle.contains (c : Circle α) (p : Point α) : Bool :=
  let dx := c.center.x - p.x
  let dy := c.center.y - p.y
  decide (dx * dx + dy * dy < c.radius * c.radius)

/-- The function `outerSquare`. -/
def outerSquare (circle : Circle α) : Rect α :=
  let r : Point α := ⟨circle.radius, circle.radius⟩
  ⟨circle.center.sub r, circle.center.add r⟩

/-! ## The grid accumulator `PointMap<DataType>` -/

/-- The private members of `PointMap`: `rows` and `cols` are the index vectors
`0, 1, ...`, `data` is the backing array. -/
structure PointMap (α : Type) where
  rect : Rect α
  spacingX : α
  spacingY : α
  rows : List Nat
  cols : List Nat
  data : List α
deriving DecidableEq, Repr

/-- The constructor `PointMap(Rect const &r, uint64_t xp, uint64_t yp)`.
`cols` receives `xp` indices and `rows` receives `yp` indices; the backing
array is allocated by `new DataType[rows.size() * cols.size()]`, which leaves
the cells default-initialised, i.e. with the previous content `heap` of the
storage.  The product of the two sizes is taken without wrap-around; see
`PointMap.new64` for the product as computed in `size_t`. -/
def PointMap.new (r : Rect α) (xp yp : Nat) (heap : Nat → α) : PointMap α :=
  let cols := List.range xp
  let rows := List.range yp
  { rect := r
    spacingX := r.width / (xp : α)
    spacingY := r.height / (yp : α)
    rows := rows
    cols := cols
    data := (List.range (rows.length * cols.length)).map heap }

/-- The body of the inner lambda of `accumulate` for the index pair `(i, j)`:
`data[i*cols.size() + j] += f(x, y)`. -/
def PointMap.cellUpdate (f : α → α → α) (i : Nat) (m : PointMap α) (j : Nat) : PointMap α :=
  let x := m.rect.tl.x + (i : α) * m.spacingX
  let y := m.rect.tl.y + (j : α) * m.spacingY
  { m with data := m.data.modify (fun v => v + f x y) (i * m.cols.length + j) }

/-- The body of the outer lambda of `accumulate` for the row index `i`: the
inner `std::for_each` over `cols`. -/
def PointMap.rowUpdate (f : α → α → α) (m : PointMap α) (i : Nat) : PointMap α :=
  m.cols.foldl (PointMap.cellUpdate f i) m

/-- The method `PointMap::accumulate`: the outer `std::for_each` over `rows`. -/
def PointMap.accumulate (m : PointMap α) (f : α → α → α) : PointMap α :=
  m.rows.foldl (PointMap.rowUpdate f) m

/-- The triples printed by `PointMap::write`, in printing order: the outer
loop runs `i` over `cols.size()`, the inner loop runs `j` over `rows.size()`
and the value is read from `data[i*rows.size() + j]`. -/
def PointMap.write (m : PointMap α) : List (α × α × α) :=
  (List.range m.cols.length).flatMap fun (i : Nat) =>
    let x := m.rect.tl.x + (i : α) * m.spacingX
    (List.range m.rows.length).map fun (j : Nat) =>
      let y := m.rect.tl.y + (j : α) * m.spacingY
      (x, y, m.data.getD (i * m.rows.length + j) 0)

/-- Successive `accumulate` calls, one per field of the list, in list order. -/
def PointMap.accumulateAll (m : PointMap α) (fs : List (α → α → α)) : PointMap α :=
  fs.foldl PointMap.accumulate m

/-- The physical sample point that `accumulate` evaluates for the pair `(i, j)`. -/
def PointMap.samplePoint (m : PointMap α) (i j : Nat) : Point α :=
  ⟨m.rect.tl.x + (i : α) * m.spacingX, m.rect.tl.y + (j : α) * m.spacingY⟩

/-- The content of the cell that `accumulate` addresses with the pair `(i, j)`. -/
def PointMap.cell (m : PointMap α) (i j : Nat) : Option α :=
  m.data[i * m.cols.length + j]?

/-- What one `accumulate f` call adds to the slot with flat index `k`: the sum,
over the visited pairs `(i, j)`, of `f` at the sample point of the pairs whose
flat index is `k`. -/
def PointMap.contrib (m : PointMap α) (f : α → α → α) (k : Nat) : α :=
  (m.rows.map fun i =>
    (m.cols.map fun j =>
      if i * m.cols.length + j = k then
        f (m.rect.tl.x + (i : α) * m.spacingX) (m.rect.tl.y + (j : α) * m.spacingY)
      else 0).sum).sum

/-! ## The beam models -/

/-- The private members of `CircleBeam`. -/
structure CircleBeam (α : Type) where
  circle : Circle α
  baseIntensity : α
deriving DecidableEq, Repr

/-- The constructor `CircleBeam(Point const &c, double r, double I)`. -/
def CircleBeam.new (c : Point α) (r I : α) : CircleBeam α :=
  { circle := ⟨⟨c.x, c.y⟩, r⟩, baseIntensity := I }

/-- The method `CircleBeam::intensity`. -/
def CircleBeam.intensity (b : CircleBeam α) (x y : α) : α :=
  if b.circle.contains ⟨x, y⟩ then b.baseIntensity else 0

/-- The method `CircleBeam::setPosition`. -/
def CircleBeam.setPosition (b : CircleBeam α) (x y : α) : CircleBeam α :=
  { b with circle := { b.circle with center := ⟨x, y⟩ } }

/-- The method `CircleBeam::changeIntensity`. -/
def CircleBeam.changeIntensity (b : CircleBeam α) (dI : α) : CircleBeam α :=
  { b with baseIntensity := b.baseIntensity + dI }

/-- The private members of `GaussBeam`. -/
structure GaussBeam (α : Type) where
  center : Point α
  radius : α
  baseIntensity : α
deriving DecidableEq, Repr

/-- The items of `<cmath>` that `GaussBeam::intensity` uses: `std::sqrt`,
`std::exp` and the constant `M_PI`. -/
structure CMath (α : Type) where
  sqrt : α → α
  exp : α → α
  pi : α

/-- The method `GaussBeam::intensity`. -/
def GaussBeam.intensity (lm : CMath α) (b : GaussBeam α) (x y : α) : α :=
  let dx := x - b.center.x
  let dy := y - b.center.y
  b.baseIntensity / (b.radius * lm.sqrt (2 * lm.pi)) *
    lm.exp (-(dx * dx + dy * dy) / (2 * (b.radius * b.radius)))

/-- The method `GaussBeam::setPosition`. -/
def GaussBeam.setPosition (b : GaussBeam α) (x y : α) : GaussBeam α :=
  { b with center := ⟨x, y⟩ }

/-- The method `GaussBeam::changeIntensity`. -/
def GaussBeam.changeIntensity (b : GaussBeam α) (dI : α) : GaussBeam α :=
  { b with baseIntensity := b.baseIntensity + dI }

/-- The abstract class `Beam` with its two implementations. -/
inductive Beam (α : Type) where
  | circle (b : CircleBeam α)
  | gauss (b : GaussBeam α)
deriving DecidableEq, Repr

/-- Virtual dispatch of `Beam::intensity`. -/
def Beam.intensity (lm : CMath α) : Beam α → α → α → α
  | .circle b, x, y => b.intensity x y
  | .gauss b, x, y => b.intensity lm x y

/-- Virtual dispatch of `Beam::setPosition`. -/
def Beam.setPosition : Beam α → α → α → Beam α
  | .circle b, x, y => .circle (b.setPosition x y)
  | .gauss b, x, y => .gauss (b.setPosition x y)

/-- Virtual dispatch of `Beam::changeIntensity`. -/
def Beam.changeIntensity : Beam α → α → Beam α
  | .circle b, dI => .circle (b.changeIntensity dI)
  | .gauss b, dI => .gauss (b.changeIntensity dI)

/-! ## The simulation of `main` -/

/-- The constant `g = 9.81e2` of `main`, in cm/s^2. -/
def g : α := 981

/-- The `switch (beamType)` of `main`: the beam starts at the origin; any other
character is rejected. -/
def makeBeam (beamType : Char) (beamRadius intensity : α) : Option (Beam α) :=
  if beamType = 'c' then some (.circle (CircleBeam.new ⟨0, 0⟩ beamRadius intensity))
  else if beamType = 'g' then some (.gauss ⟨⟨0, 0⟩, beamRadius, intensity⟩)
  else none

/-- The detector circle `grid` of `main`. -/
def detector (gridRadius : α) : Circle α :=
  ⟨⟨0, 0⟩, gridRadius⟩

/-- The mutable variables of the time loop of `main`. -/
structure SimState (α : Type) where
  time : α
  beamVelocity : α
  beamPosition : α
  beam : Beam α
  map : PointMap α

/-- The state of `main` when the time loop is entered: the map is
`PointMap<double> map(mapArea, 50, 50)` over `outerSquare(grid)`. -/
def initState (startHeight gridRadius : α) (beam : Beam α) (heap : Nat → α) : SimState α :=
  { time := 0
    beamVelocity := 0
    beamPosition := startHeight
    beam := beam
    map := PointMap.new (outerSquare (detector gridRadius)) 50 50 heap }

/-- The lambda handed to `map.accumulate` in the time loop. -/
def maskedField (lm : CMath α) (grid : Circle α) (beam : Beam α) (dt : α) (x y : α) : α :=
  if grid.contains ⟨x, y⟩ then beam.intensity lm x y * dt else 0

/-- One pass through the body of the `while (time < endTime)` loop. -/
def tick (lm : CMath α) (grid : Circle α) (dt : α) (s : SimState α) : SimState α :=
  let beamVelocity := s.beamVelocity - g * dt
  let beamPosition := s.beamPosition + beamVelocity * dt
  let time := s.time + dt
  let beam := s.beam.setPosition 0 beamPosition
  { time := time
    beamVelocity := beamVelocity
    beamPosition := beamPosition
    beam := beam
    map := s.map.accumulate (maskedField lm grid beam dt) }

/-- The loop `while (time < endTime) { ... }`, with a fuel bound on the number
of passes and a counter `n` of the passes made so far.  `none` means the fuel
ran out before the loop condition failed. -/
def timeLoop (lm : CMath α) (grid : Circle α) (dt endTime : α) :
    Nat → Nat → SimState α → Option (Nat × SimState α)
  | 0, n, s => if s.time < endTime then none else some (n, s)
  | fuel + 1, n, s =>
    if s.time < endTime then timeLoop lm grid dt endTime fuel (n + 1) (tick lm grid dt s)
    else some (n, s)

/-- The state after `n` passes through the loop body. -/
def afterTicks (lm : CMath α) (grid : Circle α) (dt : α) (n : Nat) (s : SimState α) : SimState α :=
  (tick lm grid dt)^[n] s

/-- The number of ticks, among the first `n`, after whose position update the
disk of radius `r` around the beam position `(0, beamPosition)` strictly
contains the point `p`. -/
def hitCount (lm : CMath α) (grid : Circle α) (dt : α) (s0 : SimState α) (r : α) (p : Point α)
    (n : Nat) : Nat :=
  ((List.range n).filter fun k =>
    (Circle.mk ⟨0, (afterTicks lm grid dt (k + 1) s0).beamPosition⟩ r).contains p).length

/-! ## Further geometry helpers -/

/-- The function `outerCircle`; `std::sqrt` comes from `<cmath>`. -/
def outerCircle (lm : CMath α) (rect : Rect α) : Circle α :=
  let w2 := rect.width / 2
  let h2 := rect.height / 2
  ⟨⟨rect.center.x, rect.center.y⟩, lm.sqrt (w2 * w2 + h2 * h2)⟩

/-- The function `innerCircle`. -/
def innerCircle (rect : Rect α) : Circle α :=
  let w2 := rect.width / 2
  let h2 := rect.height / 2
  ⟨⟨rect.center.x, rect.center.y⟩, min w2 h2⟩

/-! ## Index spaces of the accumulator -/

/-- The flat index `i*cols.size() + j` that `accumulate` writes for the pair
`(i, j)`. -/
def PointMap.accumulateIndex (m : PointMap α) (i j : Nat) : Nat :=
  i * m.cols.length + j

/-- The flat index `i*rows.size() + j` that `write` reads for the pair
`(i, j)`. -/
def PointMap.writeIndex (m : PointMap α) (i j : Nat) : Nat :=
  i * m.rows.length + j

/-- The index pairs `(i, j)` in the order in which the sequential nested
traversal of `accumulate` visits them: `i` over `rows`, and for each `i`, `j`
over `cols`. -/
def PointMap.indexPairs (m : PointMap α) : List (Nat × Nat) :=
  m.rows.flatMap fun i => m.cols.map fun j => (i, j)

/-- The per-cell update `data[i*cols + j] += f(x_i, y_j)` applied to the index
pairs of a list, in list order. -/
def PointMap.applyCells (f : α → α → α) (ps : List (Nat × Nat)) (m : PointMap α) : PointMap α :=
  ps.foldl (fun acc p => PointMap.cellUpdate f p.1 acc p.2) m

/-- The outer `for_each` of `accumulate` handed the row indices in the order
of the list `rs`. -/
def PointMap.accumulateRows (f : α → α → α) (rs : List Nat) (m : PointMap α) : PointMap α :=
  rs.foldl (PointMap.rowUpdate f) m

/-! ## The program `main` -/

/-- The values `main` reads from the command line. -/
structure Params (α : Type) where
  startHeight : α
  dt : α
  endTime : α
  beamType : Char
  gridRadius : α
  beamRadius : α
  intensity : α
  res : Int

/-- The character `argv[k][0]`: the first character of the argument, the
terminating NUL for an empty argument. -/
def firstChar (s : String) : Char :=
  s.data.headD (Char.ofNat 0)

/-- The argument parsing of `main`, for `argc >= 5`; `atof` and `atoi` come from
the C library.  `argv[0]` is the program name. -/
def parseParams (atof : String → α) (atoi : String → Int) (argv : List String) : Params α :=
  let argc := argv.length
  { startHeight := atof (argv.getD 1 "")
    dt := atof (argv.getD 2 "")
    endTime := atof (argv.getD 3 "")
    beamType := (firstChar (argv.getD 4 "")).toLower
    gridRadius := if argc > 5 then atof (argv.getD 5 "") else 15 / 100
    beamRadius := if argc > 6 then atof (argv.getD 6 "") else 1
    intensity := if argc > 7 then atof (argv.getD 7 "") else 2
    res := if argc > 8 then atoi (argv.getD 8 "") else 50 }

/-- One line of standard output.  The formatting of numbers by the stream is
left out: a line is given by what is printed on it. -/
inductive OutLine (α : Type) where
  | number (n : Nat)
  | text (s : String)
  | cell (x y v : α)
  | blank
deriving DecidableEq, Repr

/-- The lines of the usage message. -/
def usageLines : List String :=
  [ "Supply at least 4 parameters",
    "  1: start height (cm)",
    "  2: timestep (s)",
    "  3: end time (s)",
    "  4: beam type (c = circular, g = gaussian)",
    "",
    "You may supply up to 7 parameters (std is)",
    "  5: grid raduis (0.15 cm)",
    "  6: beam radius (1 cm)",
    "  7: beam intensity (2 W/cm^2)",
    "  8: grid resolution (50)" ]

/-- What `PointMap::write` sends to `std::cout`: one line `x y value` per
triple, then the empty line of the final `std::endl`. -/
def PointMap.writeLines (m : PointMap α) :
    List (OutLine α) :=
  (m.write.map fun t => OutLine.cell t.1 t.2.1 t.2.2) ++ [OutLine.blank]

/-- The function `main`: exit code and the lines written to standard output.
The first statement prints `argc`.  `none` means the time loop did not finish
within the fuel. -/
def mainProgram (atof : String → α) (atoi : String → Int) (lm : CMath α)
    (heap : Nat → α) (fuel : Nat) (argv : List String) : Option (Int × List (OutLine α)) :=
  let argc := argv.length
  let out : List (OutLine α) := [OutLine.number argc]
  if argc < 5 then some (1, out ++ usageLines.map OutLine.text)
  else
    let p : Params α := parseParams atof atoi argv
    match makeBeam p.beamType p.beamRadius p.intensity with
    | none => some (1, out ++ [OutLine.text "Beam type must be c/g"])
    | some beam =>
      match timeLoop lm (detector p.gridRadius) p.dt p.endTime fuel 0
          (initState p.startHeight p.gridRadius beam heap) with
      | none => none
      | some (_, s) => some (0, out ++ s.map.writeLines)

/-- The values of `atof` on the argument strings of the reference scenario
(`0` on a string without a leading number). -/
def scenarioAtof (s : String) : α :=
  if s = "100" then 100
  else if s = "0.01" then 1 / 100
  else if s = "1" then 1
  else if s = "0.15" then 15 / 100
  else if s = "2" then 2
  else 0

/-- The values of `atoi` on the argument strings of the reference scenario. -/
def scenarioAtoi (s : String) : Int :=
  if s = "10" then 10 else if s = "50" then 50 else 0

/-! ## The accumulator with 64-bit size arithmetic -/

/-- The product `rows.size() * cols.size()` as computed in `size_t`: modulo
`2^64`. -/
def sizeProduct (rows cols : Nat) : Nat := (rows * cols) % 2 ^ 64

/-- The constructor `PointMap(Rect const &r, uint64_t xp, uint64_t yp)` with the
array size computed in `size_t`.  For counts whose product is below `2^64` it
is `PointMap.new`. -/
def PointMap.new64 (r : Rect α) (xp yp : Nat) (heap : Nat → α) : PointMap α :=
  let cols := List.range xp
  let rows := List.range yp
  { rect := r
    spacingX := r.width / (xp : α)
    spacingY := r.height / (yp : α)
    rows := rows
    cols := cols
    data := (List.range (sizeProduct rows.length cols.length)).map heap }

/-- The flat index `i*cols.size() + j` of `accumulate` as computed in
`uint64_t`. -/
def PointMap.accumulateIndex64 (m : PointMap α) (i j : Nat) : Nat :=
  (i * m.cols.length + j) % 2 ^ 64

/-- The flat index `i*rows.size() + j` of `write` as computed in `uint64_t`. -/
def PointMap.writeIndex64 (m : PointMap α) (i j : Nat) : Nat :=
  (i * m.rows.length + j) % 2 ^ 64

end Definitions

/-! ## Double precision arithmetic -/

/-- A value of the C++ type `double` (IEEE 754 binary64): a finite value
`(-1)^neg * m * 2^e`, an infinity or a NaN.  Finite values are kept in the
form `m < 2^53`, `-1074 ≤ e ≤ 971`, with `2^52 ≤ m` unless `e = -1074`. -/
inductive Dbl where
  | fin (neg : Bool) (m : Nat) (e : Int)
  | inf (neg : Bool)
  | nan
deriving DecidableEq, Repr

/-- The number of binary digits of `n`, computed with `fuel` halving steps. -/
def Dbl.bits : Nat → Nat → Nat
  | 0, _ => 0
  | fuel + 1, n => if n = 0 then 0 else Dbl.bits fuel (n / 2) + 1

/-- The position of the leading binary digit of `n`: `floor (log2 n)` for
`n > 0`. -/
def Dbl.log2 (n : Nat) : Nat := Dbl.bits n n - 1

/-- Rounding to nearest, ties to even, of the exact value
`(-1)^neg * (num/den) * 2^k` with `den > 0`; values beyond the largest finite
`double` become infinite, values below the smallest normal one are rounded on
the subnormal grid `2^-1074`. -/
def Dbl.round (neg : Bool) (num den : Nat) (k : Int) : Dbl :=
  if num = 0 then .fin neg 0 (-1074)
  else
    let t : Int := (Dbl.log2 num : Int) - (Dbl.log2 den : Int)
    let ge : Bool :=
      if 0 ≤ t then decide (den * 2 ^ t.toNat ≤ num) else decide (den ≤ num * 2 ^ (-t).toNat)
    let lg : Int := (if ge then t else t - 1) + k
    let e : Int := max (lg - 52) (-1074)
    let sh : Int := k - e
    let n : Nat := if 0 ≤ sh then num * 2 ^ sh.toNat else num
    let d : Nat := if 0 ≤ sh then den else den * 2 ^ (-sh).toNat
    let q : Nat := n / d
    let r : Nat := n % d
    let q1 : Nat := if d < 2 * r ∨ (2 * r = d ∧ q % 2 = 1) then q + 1 else q
    let m : Nat := if q1 = 2 ^ 53 then 2 ^ 52 else q1
    let e1 : Int := if q1 = 2 ^ 53 then e + 1 else e
    if 971 < e1 then .inf neg else .fin neg m e1

/-- The signed integer `(-1)^neg * m * 2^(e - base)` for `base ≤ e`. -/
def Dbl.scaled (neg : Bool) (m : Nat) (e base : Int) : Int :=
  if neg then -((m * 2 ^ (e - base).toNat : Nat) : Int) else ((m * 2 ^ (e - base).toNat : Nat) : Int)

/-- Unary minus. -/
def Dbl.neg : Dbl → Dbl
  | .fin s m e => .fin (!s) m e
  | .inf s => .inf (!s)
  | .nan => .nan

/-- Addition of `double` values. -/
def Dbl.add : Dbl → Dbl → Dbl
  | .nan, _ => .nan
  | _, .nan => .nan
  | .inf s, .inf t => if s = t then .inf s else .nan
  | .inf s, .fin _ _ _ => .inf s
  | .fin _ _ _, .inf t => .inf t
  | .fin s m e, .fin t n f =>
    let c : Int := Dbl.scaled s m e (min e f) + Dbl.scaled t n f (min e f)
    if c = 0 then .fin (s && t) 0 (-1074)
    else Dbl.round (decide (c < 0)) c.natAbs 1 (min e f)

/-- Subtraction of `double` values. -/
def Dbl.sub (a b : Dbl) : Dbl := Dbl.add a (Dbl.neg b)

/-- Multiplication of `double` values. -/
def Dbl.mul : Dbl → Dbl → Dbl
  | .nan, _ => .nan
  | _, .nan => .nan
  | .inf s, .inf t => .inf (xor s t)
  | .inf s, .fin t n _ => if n = 0 then .nan else .inf (xor s t)
  | .fin s m _, .inf t => if m = 0 then .nan else .inf (xor s t)
  | .fin s m e, .fin t n f => Dbl.round (xor s t) (m * n) 1 (e + f)

/-- Division of `double` values. -/
def Dbl.div : Dbl → Dbl → Dbl
  | .nan, _ => .nan
  | _, .nan => .nan
  | .inf _, .inf _ => .nan
  | .inf s, .fin t _ _ => .inf (xor s t)
  | .fin s _ _, .inf t => .fin (xor s t) 0 (-1074)
  | .fin s m e, .fin t n f =>
    if n = 0 then (if m = 0 then .nan else .inf (xor s t))
    else Dbl.round (xor s t) m n (e - f)

/-- The comparison `a < b` of `double` values (false when an operand is NaN). -/
def Dbl.lt : Dbl → Dbl → Bool
  | .nan, _ => false
  | _, .nan => false
  | .inf s, .inf t => s && !t
  | .inf s, .fin _ _ _ => s
  | .fin _ _ _, .inf t => !t
  | .fin s m e, .fin t n f =>
    decide (Dbl.scaled s m e (min e f) < Dbl.scaled t n f (min e f))

/-- Conversion of an unsigned integer to `double`. -/
def Dbl.ofNat (n : Nat) : Dbl := Dbl.round false n 1 0

/-- The arithmetic of `double` as instances of the operation classes the
program is written over. -/
instance Dbl.instAdd : Add Dbl := ⟨Dbl.add⟩
instance Dbl.instSub : Sub Dbl := ⟨Dbl.sub⟩
instance Dbl.instMul : Mul Dbl := ⟨Dbl.mul⟩
instance Dbl.instDiv : Div Dbl := ⟨Dbl.div⟩
instance Dbl.instNeg : Neg Dbl := ⟨Dbl.neg⟩
instance Dbl.instZero : Zero Dbl := ⟨.fin false 0 (-1074)⟩
instance Dbl.instOne : One Dbl := ⟨Dbl.ofNat 1⟩
instance Dbl.instNatCast : NatCast Dbl := ⟨Dbl.ofNat⟩
instance Dbl.instLT : LT Dbl := ⟨fun a b => Dbl.lt a b = true⟩
instance Dbl.instDecidableLT : DecidableRel (fun a b : Dbl => a < b) := fun a b =>
  inferInstanceAs (Decidable (Dbl.lt a b = true))
instance Dbl.instMin : Min Dbl := ⟨fun a b => if b < a then b else a⟩


/-- A value for the `<cmath>` parameter of runs with a circle beam over
`double`; such runs never call it. -/
def Dbl.cmathUnused : CMath Dbl := ⟨fun x => x, fun x => x, 0⟩

/-- The state in which the time loop is entered for start height 0, detector
radius 0.15, a circle beam of radius 10^6 and intensity 2, and zeroed storage,
in `double`. -/
def Dbl.wideBeamInit : SimState Dbl :=
  initState 0 (15 / 100) (.circle (CircleBeam.new ⟨0, 0⟩ 1000000 2)) (fun _ => 0)

/-- The `double` value `2^-600`. -/
def Dbl.tiny : Dbl := .fin false 4503599627370496 (-652)

/-- The state in which the time loop is entered for start height 0, detector
radius 0.15, a circle beam of radius 1 and intensity `2^-600`, and zeroed
storage, in `double`. -/
def Dbl.faintBeamInit : SimState Dbl :=
  initState 0 (15 / 100) (.circle (CircleBeam.new ⟨0, 0⟩ 1 Dbl.tiny)) (fun _ => 0)

/-! ## Facts that hold in any arithmetic

The lemmas of this section use no law of arithmetic: they hold for exact
fields and for `double` alike. -/

section AnyArithmetic

/-- Two index pairs with columns below the stride share a flat index only
when they are the same pair. -/
theorem flat_index_inj {C i j i0 j0 : Nat} (hj : j < C) (hj0 : j0 < C)
    (h : i * C + j = i0 * C + j0) : i = i0 ∧ j = j0 := by
  have hi : i = i0 := by
    rcases lt_trichotomy i i0 with hlt | heq | hgt
    · exfalso
      have : (i + 1) * C ≤ i0 * C := Nat.mul_le_mul_right C hlt
      have h2 : (i + 1) * C = i * C + C := by ring
      omega
    · exact heq
    · exfalso
      have : (i0 + 1) * C ≤ i * C := Nat.mul_le_mul_right C hgt
      have h2 : (i0 + 1) * C = i0 * C + C := by ring
      omega
  subst hi
  exact ⟨rfl, by omega⟩

/-- A flat index built from an in-range pair is in range. -/
theorem flat_index_lt {R C i j : Nat} (hi : i < R) (hj : j < C) : i * C + j < R * C := by
  have : (i + 1) * C ≤ R * C := Nat.mul_le_mul_right C hi
  have h2 : (i + 1) * C = i * C + C := by ring
  omega

section Constructor

variable {α : Type} [Sub α] [Div α] [NatCast α]

/-- The constructor sets the index vectors and sizes the backing array. -/
theorem new_shape (r : Rect α) (xp yp : Nat) (heap : Nat → α) :
    (PointMap.new r xp yp heap).rect = r ∧
    (PointMap.new r xp yp heap).spacingX = r.width / (xp : α) ∧
    (PointMap.new r xp yp heap).spacingY = r.height / (yp : α) ∧
    (PointMap.new r xp yp heap).rows = List.range yp ∧
    (PointMap.new r xp yp heap).cols = List.range xp ∧
    (PointMap.new r xp yp heap).data.length = yp * xp := by
  simp [PointMap.new]

/-- Slot `k` of a fresh map holds the previous content of the storage. -/
theorem new_data (r : Rect α) (xp yp : Nat) (heap : Nat → α) {k : Nat} (hk : k < yp * xp) :
    (PointMap.new r xp yp heap).data[k]? = some (heap k) := by
  simp [PointMap.new, List.getElem?_range, hk]

/-- When the product of the counts is below `2^64`, the constructor with
`size_t` arithmetic is the constructor without wrap-around. -/
theorem new64_eq_new (r : Rect α) (xp yp : Nat) (heap : Nat → α)
    (h : yp * xp < 2 ^ 64) :
    PointMap.new64 r xp yp heap = PointMap.new r xp yp heap := by
  simp only [PointMap.new64, PointMap.new, sizeProduct, List.length_range,
    Nat.mod_eq_of_lt h]

/-- When the product of the counts is a multiple of `2^64`, the backing array
has no slot. -/
theorem new64_wrapped (r : Rect α) (xp yp : Nat) (heap : Nat → α)
    (h : (yp * xp) % 2 ^ 64 = 0) :
    (PointMap.new64 r xp yp heap).rows.length = yp ∧
    (PointMap.new64 r xp yp heap).cols.length = xp ∧
    (PointMap.new64 r xp yp heap).data.length = 0 ∧
    ¬ ((PointMap.new64 r xp yp heap).accumulateIndex64 0 0 <
        (PointMap.new64 r xp yp heap).data.length) := by
  have hlen : (PointMap.new64 r xp yp heap).data.length = 0 := by
    simp only [PointMap.new64, sizeProduct, List.length_map, List.length_range, h]
  refine ⟨?_, ?_, hlen, ?_⟩
  · simp only [PointMap.new64, List.length_range]
  · simp only [PointMap.new64, List.length_range]
  · rw [hlen]
    exact Nat.not_lt_zero _

end Constructor

section Cells

variable {α : Type} [Add α] [Mul α] [NatCast α]

theorem cellUpdate_frame (f : α → α → α) (i j : Nat) (m : PointMap α) :
    (PointMap.cellUpdate f i m j).rect = m.rect ∧
    (PointMap.cellUpdate f i m j).spacingX = m.spacingX ∧
    (PointMap.cellUpdate f i m j).spacingY = m.spacingY ∧
    (PointMap.cellUpdate f i m j).rows = m.rows ∧
    (PointMap.cellUpdate f i m j).cols = m.cols :=
  ⟨rfl, rfl, rfl, rfl, rfl⟩

/-- The per-cell update changes the addressed slot only, by adding the value
of the field at the sample point. -/
theorem cellUpdate_data_any (f : α → α → α) (i j k : Nat) (m : PointMap α) :
    (PointMap.cellUpdate f i m j).data[k]? =
      (m.data[k]?).map (fun v =>
        if i * m.cols.length + j = k then
          v + f (m.rect.tl.x + (i : α) * m.spacingX) (m.rect.tl.y + (j : α) * m.spacingY)
        else v) := by
  simp only [PointMap.cellUpdate, List.getElem?_modify, Option.map_eq_map]

/-- The inner traversal for row `i` over distinct in-range column indices: the
slot of the pair `(i0, j0)` receives one addition when `i = i0` and `j0` is
among the columns, and is untouched otherwise. -/
theorem foldl_cellUpdate_any (f : α → α → α) (i : Nat) (cs : List Nat) (m : PointMap α)
    (hnd : cs.Nodup) (hlt : ∀ c ∈ cs, c < m.cols.length) :
    (cs.foldl (PointMap.cellUpdate f i) m).rect = m.rect ∧
    (cs.foldl (PointMap.cellUpdate f i) m).spacingX = m.spacingX ∧
    (cs.foldl (PointMap.cellUpdate f i) m).spacingY = m.spacingY ∧
    (cs.foldl (PointMap.cellUpdate f i) m).rows = m.rows ∧
    (cs.foldl (PointMap.cellUpdate f i) m).cols = m.cols ∧
    ∀ i0 j0, j0 < m.cols.length →
      (cs.foldl (PointMap.cellUpdate f i) m).data[i0 * m.cols.length + j0]? =
        (m.data[i0 * m.cols.length + j0]?).map (fun v =>
          if i = i0 ∧ j0 ∈ cs then
            v + f (m.rect.tl.x + (i0 : α) * m.spacingX) (m.rect.tl.y + (j0 : α) * m.spacingY)
          else v) := by
  induction cs generalizing m with
  | nil =>
    refine ⟨rfl, rfl, rfl, rfl, rfl, ?_⟩
    intro i0 j0 _
    simp only [List.foldl_nil, List.not_mem_nil, and_false, if_false]
    cases m.data[i0 * m.cols.length + j0]? <;> rfl
  | cons c cs ih =>
    have hc : c < m.cols.length := hlt c (List.mem_cons_self c cs)
    have hnd' := List.nodup_cons.mp hnd
    obtain ⟨g1, g2, g3, g4, g5⟩ := cellUpdate_frame f i c m
    obtain ⟨h1, h2, h3, h4, h5, h6⟩ := ih (PointMap.cellUpdate f i m c) hnd'.2
      (fun c' hc' => by rw [g5]; exact hlt c' (List.mem_cons_of_mem c hc'))
    simp only [List.foldl_cons]
    refine ⟨h1.trans g1, h2.trans g2, h3.trans g3, h4.trans g4, h5.trans g5, ?_⟩
    intro i0 j0 hj0
    have h6' := h6 i0 j0 (by rw [g5]; exact hj0)
    rw [g1, g2, g3, g5] at h6'
    rw [h6', cellUpdate_data_any]
    cases m.data[i0 * m.cols.length + j0]? with
    | none => rfl
    | some v =>
      simp only [Option.map_some', Option.some.injEq]
      by_cases hsame : i = i0 ∧ c = j0
      · obtain ⟨rfl, rfl⟩ := hsame
        simp [hnd'.1]
      · have hidx : ¬ i * m.cols.length + c = i0 * m.cols.length + j0 :=
          fun h => hsame (flat_index_inj hc hj0 h)
        rw [if_neg hidx]
        by_cases hi : i = i0
        · have hcj : ¬ j0 = c := fun h => hsame ⟨hi, h.symm⟩
          simp [hi, hcj]
        · simp [hi]

/-- The outer traversal over distinct row indices, on a map whose column
indices are distinct and in range. -/
theorem foldl_rowUpdate_any (f : α → α → α) (rs : List Nat) (m : PointMap α)
    (hnd : rs.Nodup) (hcnd : m.cols.Nodup) (hlt : ∀ c ∈ m.cols, c < m.cols.length) :
    (rs.foldl (PointMap.rowUpdate f) m).rect = m.rect ∧
    (rs.foldl (PointMap.rowUpdate f) m).spacingX = m.spacingX ∧
    (rs.foldl (PointMap.rowUpdate f) m).spacingY = m.spacingY ∧
    (rs.foldl (PointMap.rowUpdate f) m).rows = m.rows ∧
    (rs.foldl (PointMap.rowUpdate f) m).cols = m.cols ∧
    ∀ i0 j0, j0 < m.cols.length → j0 ∈ m.cols →
      (rs.foldl (PointMap.rowUpdate f) m).data[i0 * m.cols.length + j0]? =
        (m.data[i0 * m.cols.length + j0]?).map (fun v =>
          if i0 ∈ rs then
            v + f (m.rect.tl.x + (i0 : α) * m.spacingX) (m.rect.tl.y + (j0 : α) * m.spacingY)
          else v) := by
  induction rs generalizing m with
  | nil =>
    refine ⟨rfl, rfl, rfl, rfl, rfl, ?_⟩
    intro i0 j0 _ _
    simp only [List.foldl_nil, List.not_mem_nil, if_false]
    cases m.data[i0 * m.cols.length + j0]? <;> rfl
  | cons r rs ih =>
    have hnd' := List.nodup_cons.mp hnd
    obtain ⟨g1, g2, g3, g4, g5, g6⟩ := foldl_cellUpdate_any f r m.cols m hcnd hlt
    have g1' : (PointMap.rowUpdate f m r).rect = m.rect := g1
    have g2' : (PointMap.rowUpdate f m r).spacingX = m.spacingX := g2
    have g3' : (PointMap.rowUpdate f m r).spacingY = m.spacingY := g3
    have g4' : (PointMap.rowUpdate f m r).rows = m.rows := g4
    have g5' : (PointMap.rowUpdate f m r).cols = m.cols := g5
    obtain ⟨h1, h2, h3, h4, h5, h6⟩ := ih (PointMap.rowUpdate f m r) hnd'.2
      (by rw [g5']; exact hcnd) (by rw [g5']; exact hlt)
    simp only [List.foldl_cons]
    refine ⟨h1.trans g1', h2.trans g2', h3.trans g3', h4.trans g4', h5.trans g5', ?_⟩
    intro i0 j0 hj0 hmem
    have h6' := h6 i0 j0 (by rw [g5']; exact hj0) (by rw [g5']; exact hmem)
    rw [g1', g2', g3', g5'] at h6'
    have g6' : (PointMap.rowUpdate f m r).data[i0 * m.cols.length + j0]? = _ := g6 i0 j0 hj0
    rw [h6', g6']
    cases m.data[i0 * m.cols.length + j0]? with
    | none => rfl
    | some v =>
      simp only [Option.map_some', Option.some.injEq]
      by_cases hr : r = i0
      · subst hr
        simp [hmem, hnd'.1]
      · have hr' : ¬ i0 = r := fun h => hr h.symm
        simp [hr, hr']

/-- One `accumulate` call, in any arithmetic, on a map whose index vectors are
`0..R-1` and `0..C-1`: the frame is kept and the slot of each in-range pair
`(i0, j0)` receives exactly one addition, of the field at its sample point. -/
theorem accumulate_cell_any (f : α → α → α) (m : PointMap α) (R C : Nat)
    (hr : m.rows = List.range R) (hc : m.cols = List.range C) :
    (m.accumulate f).rect = m.rect ∧
    (m.accumulate f).spacingX = m.spacingX ∧
    (m.accumulate f).spacingY = m.spacingY ∧
    (m.accumulate f).rows = m.rows ∧
    (m.accumulate f).cols = m.cols ∧
    ∀ i0 j0, i0 < R → j0 < C →
      (m.accumulate f).data[i0 * C + j0]? =
        (m.data[i0 * C + j0]?).map (fun v =>
          v + f (m.rect.tl.x + (i0 : α) * m.spacingX)
            (m.rect.tl.y + (j0 : α) * m.spacingY)) := by
  have hlen : m.cols.length = C := by rw [hc, List.length_range]
  obtain ⟨h1, h2, h3, h4, h5, h6⟩ := foldl_rowUpdate_any f m.rows m
    (by rw [hr]; exact List.nodup_range R) (by rw [hc]; exact List.nodup_range C)
    (by intro c hmem; rw [hc] at hmem; rw [hlen]; exact List.mem_range.mp hmem)
  refine ⟨h1, h2, h3, h4, h5, ?_⟩
  intro i0 j0 hi hj
  have h := h6 i0 j0 (by rw [hlen]; exact hj) (by rw [hc]; exact List.mem_range.mpr hj)
  rw [hlen] at h
  have hmem : i0 ∈ m.rows := by rw [hr]; exact List.mem_range.mpr hi
  simp only [PointMap.accumulate]
  rw [h]
  simp [hmem]

/-- A sequence of `accumulate` calls keeps the index vectors, in any
arithmetic. -/
theorem accumulateAll_shape_any (fs : List (α → α → α)) (m : PointMap α) (R C : Nat)
    (hr : m.rows = List.range R) (hc : m.cols = List.range C) :
    (m.accumulateAll fs).rows = List.range R ∧ (m.accumulateAll fs).cols = List.range C := by
  induction fs generalizing m with
  | nil => exact ⟨hr, hc⟩
  | cons f fs ih =>
    obtain ⟨_, _, _, g4, g5, _⟩ := accumulate_cell_any f m R C hr hc
    simp only [PointMap.accumulateAll, List.foldl_cons]
    exact ih (m.accumulate f) (g4.trans hr) (g5.trans hc)

end Cells

section Written

variable {α : Type} [Add α] [Mul α] [NatCast α] [Zero α]

/-- The triples of `write` are the image of the index pairs `(i, j)`,
`i < cols.size()`, `j < rows.size()`, in lexicographic order. -/
theorem write_eq_product_map (m : PointMap α) :
    m.write = (List.product (List.range m.cols.length) (List.range m.rows.length)).map
      fun p => (m.rect.tl.x + (p.1 : α) * m.spacingX, m.rect.tl.y + (p.2 : α) * m.spacingY,
        m.data.getD (p.1 * m.rows.length + p.2) 0) := by
  simp only [PointMap.write, List.product, List.map_flatMap, List.map_map]
  rfl

/-- The number of triples of `write`. -/
theorem write_length (m : PointMap α) :
    m.write.length = m.cols.length * m.rows.length := by
  rw [write_eq_product_map, List.length_map]
  exact (List.length_product _ _).trans (by rw [List.length_range, List.length_range])

end Written

section Run

variable {α : Type} [Add α] [Sub α] [Mul α] [Div α] [Neg α] [Zero α] [NatCast α]
  [LT α] [DecidableRel (fun a b : α => a < b)]

theorem afterTicks_succ (lm : CMath α) (grid : Circle α) (dt : α) (n : Nat) (s : SimState α) :
    afterTicks lm grid dt (n + 1) s = tick lm grid dt (afterTicks lm grid dt n s) := by
  simp only [afterTicks, Function.iterate_succ_apply']

/-- The loop makes exactly the passes for which the condition holds: if the
condition `time < endTime` holds after `j` passes for every `j < N` and fails
after `N` passes, then with fuel at least `N` the loop returns after `N`
passes. -/
theorem timeLoop_exact (lm : CMath α) (grid : Circle α) (dt endTime : α) (s0 : SimState α)
    (N : Nat)
    (hlt : ∀ j, j < N → (afterTicks lm grid dt j s0).time < endTime)
    (hge : ¬ (afterTicks lm grid dt N s0).time < endTime) :
    ∀ d j fuel, j + d = N → d ≤ fuel →
      timeLoop lm grid dt endTime fuel j (afterTicks lm grid dt j s0)
        = some (N, afterTicks lm grid dt N s0) := by
  intro d
  induction d with
  | zero =>
    intro j fuel hj _
    simp only [add_zero] at hj
    subst hj
    cases fuel <;> simp [timeLoop, hge]
  | succ d ih =>
    intro j fuel hj hfuel
    obtain ⟨fuel, rfl⟩ : ∃ f, fuel = f + 1 := ⟨fuel - 1, by omega⟩
    have hc : (afterTicks lm grid dt j s0).time < endTime := hlt j (by omega)
    simp only [timeLoop, hc, if_true]
    rw [← afterTicks_succ]
    exact ih (j + 1) fuel (by omega) (by omega)

/-- A result of the loop is the state after as many passes as the counter was
advanced. -/
theorem timeLoop_result (lm : CMath α) (grid : Circle α) (dt endTime : α) :
    ∀ (fuel j : Nat) (s : SimState α) (k : Nat) (s' : SimState α),
      timeLoop lm grid dt endTime fuel j s = some (k, s') →
      ∃ d, k = j + d ∧ s' = afterTicks lm grid dt d s := by
  intro fuel
  induction fuel with
  | zero =>
    intro j s k s' h
    by_cases hc : s.time < endTime
    · simp [timeLoop, hc] at h
    · simp only [timeLoop, hc, if_false, Option.some.injEq, Prod.mk.injEq] at h
      exact ⟨0, by omega, by rw [← h.2]; rfl⟩
  | succ fuel ih =>
    intro j s k s' h
    by_cases hc : s.time < endTime
    · simp only [timeLoop, hc, if_true] at h
      obtain ⟨d, hk, hs⟩ := ih (j + 1) (tick lm grid dt s) k s' h
      refine ⟨d + 1, by omega, ?_⟩
      rw [hs]
      simp only [afterTicks, Function.iterate_succ_apply]
    · simp only [timeLoop, hc, if_false, Option.some.injEq, Prod.mk.injEq] at h
      exact ⟨0, by omega, by rw [← h.2]; rfl⟩

/-- The map after `n` passes, in any arithmetic: the frame is that of the
initial map, and the slot of an in-range pair `(i, j)` holds the initial value
with the masked field of each pass added to it, one pass after the other. -/
theorem afterTicks_cell_any (lm : CMath α) (grid : Circle α) (dt : α) (s0 : SimState α)
    (R C : Nat) (hr : s0.map.rows = List.range R) (hc : s0.map.cols = List.range C)
    {i j : Nat} (hi : i < R) (hj : j < C) (v0 : α)
    (hv : s0.map.data[i * C + j]? = some v0) (n : Nat) :
    (afterTicks lm grid dt n s0).map.rect = s0.map.rect ∧
    (afterTicks lm grid dt n s0).map.spacingX = s0.map.spacingX ∧
    (afterTicks lm grid dt n s0).map.spacingY = s0.map.spacingY ∧
    (afterTicks lm grid dt n s0).map.rows = s0.map.rows ∧
    (afterTicks lm grid dt n s0).map.cols = s0.map.cols ∧
    (afterTicks lm grid dt n s0).map.data[i * C + j]? =
      some ((List.range n).foldl (fun acc k =>
        acc + maskedField lm grid (afterTicks lm grid dt (k + 1) s0).beam dt
          (s0.map.rect.tl.x + (i : α) * s0.map.spacingX)
          (s0.map.rect.tl.y + (j : α) * s0.map.spacingY)) v0) := by
  induction n with
  | zero => exact ⟨rfl, rfl, rfl, rfl, rfl, hv⟩
  | succ n ih =>
    obtain ⟨h1, h2, h3, h4, h5, h6⟩ := ih
    have hmap : (afterTicks lm grid dt (n + 1) s0).map =
        (afterTicks lm grid dt n s0).map.accumulate
          (maskedField lm grid (afterTicks lm grid dt (n + 1) s0).beam dt) := by
      rw [afterTicks_succ]; rfl
    obtain ⟨g1, g2, g3, g4, g5, g6⟩ := accumulate_cell_any
      (maskedField lm grid (afterTicks lm grid dt (n + 1) s0).beam dt)
      (afterTicks lm grid dt n s0).map R C (h4.trans hr) (h5.trans hc)
    rw [hmap]
    refine ⟨g1.trans h1, g2.trans h2, g3.trans h3, g4.trans h4, g5.trans h5, ?_⟩
    rw [g6 i j hi hj, h6, h1, h2, h3]
    simp only [Option.map_some', List.range_succ, List.foldl_append, List.foldl_cons,
      List.foldl_nil]

end Run

/-- The beam selection rejects exactly the characters other than `c` and `g`. -/
theorem makeBeam_eq_none_iff {α : Type} [Zero α] (ch : Char) (r I : α) :
    makeBeam ch r I = none ↔ ch ≠ 'c' ∧ ch ≠ 'g' := by
  unfold makeBeam
  by_cases hc : ch = 'c'
  · simp [hc]
  · by_cases hg : ch = 'g'
    · simp [hg]
    · simp [hc, hg]

section Whole

variable {α : Type} [Add α] [Sub α] [Mul α] [Div α] [Neg α] [Zero α] [One α] [NatCast α]
  [LT α] [DecidableRel (fun a b : α => a < b)]

/-- With fewer than four positional arguments `main` prints `argc` and the
usage text and returns 1. -/
theorem mainProgram_usage (atof : String → α) (atoi : String → Int) (lm : CMath α)
    (heap : Nat → α) (fuel : Nat) (argv : List String) (h : argv.length < 5) :
    mainProgram atof atoi lm heap fuel argv =
      some (1, [OutLine.number argv.length] ++ usageLines.map OutLine.text) := by
  simp [mainProgram, h]

/-- With an unknown beam type `main` prints `argc` and the error line and
returns 1. -/
theorem mainProgram_beam_error (atof : String → α) (atoi : String → Int) (lm : CMath α)
    (heap : Nat → α) (fuel : Nat) (argv : List String) (h : ¬ argv.length < 5)
    (hb : (firstChar (argv.getD 4 "")).toLower ≠ 'c' ∧
      (firstChar (argv.getD 4 "")).toLower ≠ 'g') :
    mainProgram atof atoi lm heap fuel argv =
      some (1, [OutLine.number argv.length] ++ [OutLine.text "Beam type must be c/g"]) := by
  have hnone : makeBeam (parseParams atof atoi argv).beamType
      (parseParams atof atoi argv).beamRadius (parseParams atof atoi argv).intensity
        = none := (makeBeam_eq_none_iff _ _ _).mpr hb
  simp only [mainProgram, h, if_false, hnone]

/-- With at least four positional arguments and a known beam type, `main` is
the time loop followed by the dump. -/
theorem mainProgram_run (atof : String → α) (atoi : String → Int) (lm : CMath α)
    (heap : Nat → α) (fuel : Nat) (argv : List String) (h : ¬ argv.length < 5)
    (hb : ¬ ((firstChar (argv.getD 4 "")).toLower ≠ 'c' ∧
      (firstChar (argv.getD 4 "")).toLower ≠ 'g')) :
    ∃ beam, makeBeam (parseParams atof atoi argv).beamType
        (parseParams atof atoi argv).beamRadius (parseParams atof atoi argv).intensity
        = some beam ∧
      mainProgram atof atoi lm heap fuel argv =
        (timeLoop lm (detector (parseParams atof atoi argv).gridRadius)
          (parseParams atof atoi argv).dt (parseParams atof atoi argv).endTime fuel 0
          (initState (parseParams atof atoi argv).startHeight
            (parseParams atof atoi argv).gridRadius beam heap)).map
          fun r => (0, [OutLine.number argv.length] ++ r.2.map.writeLines) := by
  have hsome : makeBeam (parseParams atof atoi argv).beamType
      (parseParams atof atoi argv).beamRadius (parseParams atof atoi argv).intensity
        ≠ none := fun hn => hb ((makeBeam_eq_none_iff _ _ _).mp hn)
  obtain ⟨beam, hbeam⟩ := Option.ne_none_iff_exists'.mp hsome
  refine ⟨beam, hbeam, ?_⟩
  simp only [mainProgram, h, if_false, hbeam]
  cases timeLoop lm (detector (parseParams atof atoi argv).gridRadius)
      (parseParams atof atoi argv).dt (parseParams atof atoi argv).endTime fuel 0
      (initState (parseParams atof atoi argv).startHeight
        (parseParams atof atoi argv).gridRadius beam heap) with
  | none => rfl
  | some r => rfl

/-- A run of `main` that returns 0 has printed `argc`, then the dump of the map
after some number of passes of the loop. -/
theorem mainProgram_success (atof : String → α) (atoi : String → Int) (lm : CMath α)
    (heap : Nat → α) (fuel : Nat) (argv : List String) (out : List (OutLine α))
    (h : mainProgram atof atoi lm heap fuel argv = some (0, out)) :
    ∃ (n : Nat) (beam : Beam α),
      out = [OutLine.number argv.length] ++
        (afterTicks lm (detector (parseParams atof atoi argv).gridRadius)
          (parseParams atof atoi argv).dt n
          (initState (parseParams atof atoi argv).startHeight
            (parseParams atof atoi argv).gridRadius beam heap)).map.writeLines := by
  by_cases h5 : argv.length < 5
  · rw [mainProgram_usage atof atoi lm heap fuel argv h5] at h
    simp at h
  · by_cases hb : (firstChar (argv.getD 4 "")).toLower ≠ 'c' ∧
        (firstChar (argv.getD 4 "")).toLower ≠ 'g'
    · rw [mainProgram_beam_error atof atoi lm heap fuel argv h5 hb] at h
      simp at h
    · obtain ⟨beam, _, hrun⟩ := mainProgram_run atof atoi lm heap fuel argv h5 hb
      rw [hrun] at h
      cases hl : timeLoop lm (detector (parseParams atof atoi argv).gridRadius)
          (parseParams atof atoi argv).dt (parseParams atof atoi argv).endTime fuel 0
          (initState (parseParams atof atoi argv).startHeight
            (parseParams atof atoi argv).gridRadius beam heap) with
      | none => rw [hl] at h; simp at h
      | some r =>
        obtain ⟨k, s⟩ := r
        rw [hl] at h
        simp only [Option.map_some', Option.some.injEq, Prod.mk.injEq, true_and] at h
        obtain ⟨d, _, hs⟩ := timeLoop_result lm _ _ _ fuel 0 _ k s hl
        exact ⟨d, beam, by rw [← h, hs]⟩

end Whole

end AnyArithmetic

/-! ## Accumulation: frame and cell content -/

/-- Structures that agree on every field are equal. -/
theorem PointMap.ext_fields {β : Type} {a b : PointMap β} (h1 : a.rect = b.rect)
    (h2 : a.spacingX = b.spacingX) (h3 : a.spacingY = b.spacingY)
    (h4 : a.rows = b.rows) (h5 : a.cols = b.cols) (h6 : a.data = b.data) : a = b := by
  cases a; cases b; simp_all

section Accumulate

variable {α : Type} [LinearOrderedField α]

theorem cellUpdate_data (f : α → α → α) (i j k : Nat) (m : PointMap α) :
    (PointMap.cellUpdate f i m j).data[k]? =
      (m.data[k]?).map (fun v => v +
        if i * m.cols.length + j = k then
          f (m.rect.tl.x + (i : α) * m.spacingX) (m.rect.tl.y + (j : α) * m.spacingY)
        else 0) := by
  simp only [PointMap.cellUpdate, List.getElem?_modify, Option.map_eq_map]
  cases m.data[k]? with
  | none => rfl
  | some v => by_cases h : i * m.cols.length + j = k <;> simp [h]

/-- Folding `cellUpdate` over any list of column indices: the frame is kept and
slot `k` receives the sum of the contributions addressed to it. -/
theorem foldl_cellUpdate (f : α → α → α) (i : Nat) (cs : List Nat) (m : PointMap α) :
    (cs.foldl (PointMap.cellUpdate f i) m).rect = m.rect ∧
    (cs.foldl (PointMap.cellUpdate f i) m).spacingX = m.spacingX ∧
    (cs.foldl (PointMap.cellUpdate f i) m).spacingY = m.spacingY ∧
    (cs.foldl (PointMap.cellUpdate f i) m).rows = m.rows ∧
    (cs.foldl (PointMap.cellUpdate f i) m).cols = m.cols ∧
    ∀ k, (cs.foldl (PointMap.cellUpdate f i) m).data[k]? =
      (m.data[k]?).map (fun v => v + (cs.map fun j =>
        if i * m.cols.length + j = k then
          f (m.rect.tl.x + (i : α) * m.spacingX) (m.rect.tl.y + (j : α) * m.spacingY)
        else 0).sum) := by
  induction cs generalizing m with
  | nil => simp
  | cons c cs ih =>
    obtain ⟨h1, h2, h3, h4, h5, h6⟩ := ih (PointMap.cellUpdate f i m c)
    obtain ⟨g1, g2, g3, g4, g5⟩ := cellUpdate_frame f i c m
    simp only [List.foldl_cons]
    refine ⟨h1.trans g1, h2.trans g2, h3.trans g3, h4.trans g4, h5.trans g5, ?_⟩
    intro k
    rw [h6 k, cellUpdate_data, g1, g2, g3, g5]
    cases m.data[k]? with
    | none => rfl
    | some v => simp [add_assoc]

theorem rowUpdate_spec (f : α → α → α) (i : Nat) (m : PointMap α) :
    (PointMap.rowUpdate f m i).rect = m.rect ∧
    (PointMap.rowUpdate f m i).spacingX = m.spacingX ∧
    (PointMap.rowUpdate f m i).spacingY = m.spacingY ∧
    (PointMap.rowUpdate f m i).rows = m.rows ∧
    (PointMap.rowUpdate f m i).cols = m.cols ∧
    ∀ k, (PointMap.rowUpdate f m i).data[k]? =
      (m.data[k]?).map (fun v => v + (m.cols.map fun j =>
        if i * m.cols.length + j = k then
          f (m.rect.tl.x + (i : α) * m.spacingX) (m.rect.tl.y + (j : α) * m.spacingY)
        else 0).sum) :=
  foldl_cellUpdate f i m.cols m

/-- Folding `rowUpdate` over any list of row indices. -/
theorem foldl_rowUpdate (f : α → α → α) (rs : List Nat) (m : PointMap α) :
    (rs.foldl (PointMap.rowUpdate f) m).rect = m.rect ∧
    (rs.foldl (PointMap.rowUpdate f) m).spacingX = m.spacingX ∧
    (rs.foldl (PointMap.rowUpdate f) m).spacingY = m.spacingY ∧
    (rs.foldl (PointMap.rowUpdate f) m).rows = m.rows ∧
    (rs.foldl (PointMap.rowUpdate f) m).cols = m.cols ∧
    ∀ k, (rs.foldl (PointMap.rowUpdate f) m).data[k]? =
      (m.data[k]?).map (fun v => v + (rs.map fun i => (m.cols.map fun j =>
        if i * m.cols.length + j = k then
          f (m.rect.tl.x + (i : α) * m.spacingX) (m.rect.tl.y + (j : α) * m.spacingY)
        else 0).sum).sum) := by
  induction rs generalizing m with
  | nil => simp
  | cons r rs ih =>
    obtain ⟨h1, h2, h3, h4, h5, h6⟩ := ih (PointMap.rowUpdate f m r)
    obtain ⟨g1, g2, g3, g4, g5, g6⟩ := rowUpdate_spec f r m
    simp only [List.foldl_cons]
    refine ⟨h1.trans g1, h2.trans g2, h3.trans g3, h4.trans g4, h5.trans g5, ?_⟩
    intro k
    rw [h6 k, g6 k, g1, g2, g3, g5]
    cases m.data[k]? with
    | none => rfl
    | some v => simp [add_assoc]

/-- One `accumulate` call keeps everything but `data`, and adds `contrib` to
every slot. -/
theorem accumulate_spec (f : α → α → α) (m : PointMap α) :
    (m.accumulate f).rect = m.rect ∧
    (m.accumulate f).spacingX = m.spacingX ∧
    (m.accumulate f).spacingY = m.spacingY ∧
    (m.accumulate f).rows = m.rows ∧
    (m.accumulate f).cols = m.cols ∧
    ∀ k, (m.accumulate f).data[k]? = (m.data[k]?).map (fun v => v + m.contrib f k) :=
  foldl_rowUpdate f m.rows m

theorem toFinset_range_eq (n : Nat) : (List.range n).toFinset = Finset.range n := by
  ext k
  simp

/-- On a map whose index vectors are `0..R-1` and `0..C-1`, one `accumulate f`
call adds to the slot of the pair `(i0, j0)` the value of `f` at the sample
point of that pair, and nothing else. -/
theorem contrib_range (f : α → α → α) (m : PointMap α) (R C : Nat)
    (hr : m.rows = List.range R) (hc : m.cols = List.range C)
    {i0 j0 : Nat} (hi : i0 < R) (hj : j0 < C) :
    m.contrib f (i0 * C + j0) =
      f (m.rect.tl.x + (i0 : α) * m.spacingX) (m.rect.tl.y + (j0 : α) * m.spacingY) := by
  unfold PointMap.contrib
  rw [hr, hc, List.length_range]
  rw [← List.sum_toFinset _ (List.nodup_range R), toFinset_range_eq]
  rw [Finset.sum_eq_single i0]
  · rw [← List.sum_toFinset _ (List.nodup_range C), toFinset_range_eq]
    rw [Finset.sum_eq_single j0]
    · simp
    · intro j hjm hne
      rw [if_neg]
      intro h
      exact hne (flat_index_inj (Finset.mem_range.mp hjm) hj h).2
    · intro h
      exact absurd (Finset.mem_range.mpr hj) h
  · intro i _ hne
    rw [← List.sum_toFinset _ (List.nodup_range C), toFinset_range_eq]
    apply Finset.sum_eq_zero
    intro j hjm
    rw [if_neg]
    intro h
    exact hne (flat_index_inj (Finset.mem_range.mp hjm) hj h).1
  · intro h
    exact absurd (Finset.mem_range.mpr hi) h

/-- A sequence of `accumulate` calls keeps everything but `data`, and adds to
every slot the sum of the contributions of the calls. -/
theorem accumulateAll_spec (fs : List (α → α → α)) (m : PointMap α) :
    (m.accumulateAll fs).rect = m.rect ∧
    (m.accumulateAll fs).spacingX = m.spacingX ∧
    (m.accumulateAll fs).spacingY = m.spacingY ∧
    (m.accumulateAll fs).rows = m.rows ∧
    (m.accumulateAll fs).cols = m.cols ∧
    ∀ k, (m.accumulateAll fs).data[k]? =
      (m.data[k]?).map (fun v => v + (fs.map fun f => m.contrib f k).sum) := by
  induction fs generalizing m with
  | nil => simp [PointMap.accumulateAll]
  | cons f fs ih =>
    obtain ⟨h1, h2, h3, h4, h5, h6⟩ := ih (m.accumulate f)
    obtain ⟨g1, g2, g3, g4, g5, g6⟩ := accumulate_spec f m
    have hcontrib : ∀ (g : α → α → α) k, (m.accumulate f).contrib g k = m.contrib g k := by
      intro g k
      simp only [PointMap.contrib, g1, g2, g3, g4, g5]
    simp only [PointMap.accumulateAll, List.foldl_cons] at *
    refine ⟨h1.trans g1, h2.trans g2, h3.trans g3, h4.trans g4, h5.trans g5, ?_⟩
    intro k
    rw [h6 k, g6 k]
    simp only [hcontrib]
    cases m.data[k]? with
    | none => rfl
    | some v => simp [add_assoc]

end Accumulate

/-! ## The grid accumulator: results -/

section Grid

variable {α : Type} [LinearOrderedField α]

/-- C2, the code at a map with two columns and one row: after `accumulate` of
the field `f(x, y) = x` on zeroed cells, `write` prints the triple `(1, 0, 0)`,
whose value is not `f(1, 0) = 1`. -/
theorem write_nonsquare_mismatch :
    ((PointMap.new (⟨⟨0, 0⟩, ⟨2, 2⟩⟩ : Rect ℚ) 2 1 (fun _ => 0)).accumulate
        (fun x _ => x)).write = [(0, 0, 0), (1, 0, 0)] ∧
    (fun (x _ : ℚ) => x) 1 0 ≠ 0 := by
  constructor
  · simp [PointMap.new, PointMap.accumulate, PointMap.rowUpdate, PointMap.cellUpdate,
      PointMap.write, List.range_succ, Rect.width, Rect.height, List.modify, List.flatMap]
  · norm_num

/-- On a square map (as many rows as columns) whose cells start at zero, every
triple `(x, y, v)` that `write` prints after one `accumulate(f)` has
`v = f(x, y)`. -/
theorem write_square_consistent (r : Rect α) (n : Nat) (heap : Nat → α)
    (hz : ∀ k, k < n * n → heap k = 0) (f : α → α → α) (t : α × α × α)
    (ht : t ∈ ((PointMap.new r n n heap).accumulate f).write) :
    t.2.2 = f t.1 t.2.1 := by
  obtain ⟨n1, n2, n3, n4, n5, _⟩ := new_shape r n n heap
  obtain ⟨a1, a2, a3, a4, a5, a6⟩ := accumulate_spec f (PointMap.new r n n heap)
  simp only [PointMap.write, List.mem_flatMap, List.mem_map, List.mem_range] at ht
  obtain ⟨i, hi, j, hj, rfl⟩ := ht
  rw [a5, n5, List.length_range] at hi
  rw [a4, n4, List.length_range] at hj
  have hk : i * n + j < n * n := flat_index_lt hi hj
  simp only [a1, a2, a3, a4, n4, List.length_range]
  rw [List.getD_eq_getElem?_getD, a6, new_data r n n heap hk, hz _ hk,
    contrib_range f _ n n n4 n5 hi hj]
  simp

/-- C3, the code at a 1 by 1 map built on storage that held the value 1: the
only cell of the fresh map holds 1, not 0. -/
theorem new_keeps_storage_content :
    (PointMap.new (⟨⟨0, 0⟩, ⟨1, 1⟩⟩ : Rect ℚ) 1 1 (fun _ => 1)).cell 0 0 = some 1 ∧
    (PointMap.new (⟨⟨0, 0⟩, ⟨1, 1⟩⟩ : Rect ℚ) 1 1 (fun _ => 1)).data = [1] ∧
    (1 : ℚ) ≠ 0 := by
  refine ⟨?_, ?_, one_ne_zero⟩ <;> simp [PointMap.new, PointMap.cell]

end Grid

/-! ## The beam models: results -/

/-- C4: the intensity of a circle beam with centre `(cx, cy)`, radius `r` and
baseline intensity `I` at `(x, y)` is `I` when
`(x-cx)^2 + (y-cy)^2 < r^2` and `0` otherwise; for centre (0,0), `r = 1`,
`I = 5` it is 5 at (0.5, 0) and 0 at (1, 0) and at (1.0001, 0). -/
theorem circleBeam_intensity_exact :
    (∀ (α : Type) [LinearOrderedField α] (b : CircleBeam α) (x y : α),
      b.intensity x y =
        if (x - b.circle.center.x) ^ 2 + (y - b.circle.center.y) ^ 2 < b.circle.radius ^ 2
        then b.baseIntensity else 0) ∧
    (CircleBeam.new (⟨0, 0⟩ : Point ℚ) 1 5).intensity (1 / 2) 0 = 5 ∧
    (CircleBeam.new (⟨0, 0⟩ : Point ℚ) 1 5).intensity 1 0 = 0 ∧
    (CircleBeam.new (⟨0, 0⟩ : Point ℚ) 1 5).intensity (10001 / 10000) 0 = 0 := by
  refine ⟨?_, ?_, ?_, ?_⟩
  · intro α _ b x y
    have h : (b.circle.center.x - x) * (b.circle.center.x - x)
        + (b.circle.center.y - y) * (b.circle.center.y - y)
        = (x - b.circle.center.x) ^ 2 + (y - b.circle.center.y) ^ 2 := by ring
    simp only [CircleBeam.intensity, Circle.contains, decide_eq_true_eq, h, sq]
  · norm_num [CircleBeam.intensity, CircleBeam.new, Circle.contains]
  · norm_num [CircleBeam.intensity, CircleBeam.new, Circle.contains]
  · norm_num [CircleBeam.intensity, CircleBeam.new, Circle.contains]

/-- The Gaussian beam over the reals, with `std::sqrt`, `std::exp` and `M_PI`
read as the real square root, exponential and `π`: constant factor times a
decreasing exponential of the squared distance. -/
theorem gaussBeam_real_form (b : GaussBeam ℝ) (x y : ℝ) :
    b.intensity ⟨Real.sqrt, Real.exp, Real.pi⟩ x y =
      b.baseIntensity / (b.radius * Real.sqrt (2 * Real.pi)) *
        Real.exp (-((x - b.center.x) ^ 2 + (y - b.center.y) ^ 2) / (2 * b.radius ^ 2)) := by
  simp only [GaussBeam.intensity, sq]

/-- C5: for a Gaussian beam with `I > 0` and `r > 0` over the reals, the
intensity at the beam centre is `I / (r * sqrt(2*pi))`, a point closer to the
centre than another has the strictly greater intensity, and no point exceeds
the centre value. -/
theorem gaussBeam_peak_monotone (b : GaussBeam ℝ)
    (hI : 0 < b.baseIntensity) (hr : 0 < b.radius) :
    b.intensity ⟨Real.sqrt, Real.exp, Real.pi⟩ b.center.x b.center.y =
      b.baseIntensity / (b.radius * Real.sqrt (2 * Real.pi)) ∧
    (∀ px py qx qy : ℝ,
      Real.sqrt ((px - b.center.x) ^ 2 + (py - b.center.y) ^ 2) <
        Real.sqrt ((qx - b.center.x) ^ 2 + (qy - b.center.y) ^ 2) →
      b.intensity ⟨Real.sqrt, Real.exp, Real.pi⟩ qx qy <
        b.intensity ⟨Real.sqrt, Real.exp, Real.pi⟩ px py) ∧
    (∀ x y : ℝ, b.intensity ⟨Real.sqrt, Real.exp, Real.pi⟩ x y ≤
      b.intensity ⟨Real.sqrt, Real.exp, Real.pi⟩ b.center.x b.center.y) := by
  have hK : 0 < b.baseIntensity / (b.radius * Real.sqrt (2 * Real.pi)) := by
    apply div_pos hI
    apply mul_pos hr
    exact Real.sqrt_pos.mpr (by positivity)
  have hden : 0 < 2 * b.radius ^ 2 := by positivity
  refine ⟨?_, ?_, ?_⟩
  · rw [gaussBeam_real_form]
    simp
  · intro px py qx qy hlt
    have hd : (px - b.center.x) ^ 2 + (py - b.center.y) ^ 2 <
        (qx - b.center.x) ^ 2 + (qy - b.center.y) ^ 2 :=
      (Real.sqrt_lt_sqrt_iff (by positivity)).mp hlt
    rw [gaussBeam_real_form, gaussBeam_real_form]
    apply mul_lt_mul_of_pos_left _ hK
    apply Real.exp_lt_exp.mpr
    apply div_lt_div_of_pos_right _ hden
    linarith
  · intro x y
    rw [gaussBeam_real_form, gaussBeam_real_form]
    apply mul_le_mul_of_nonneg_left _ hK.le
    apply Real.exp_le_exp.mpr
    apply div_le_div_of_nonneg_right _ hden.le
    have h1 : 0 ≤ (x - b.center.x) ^ 2 + (y - b.center.y) ^ 2 := by positivity
    simp only [sub_self, ne_eq, OfNat.ofNat_ne_zero, not_false_eq_true, zero_pow, add_zero,
      neg_zero]
    linarith

/-- C5 at the unit beam at the origin, comparing the centre with (1, 0). -/
theorem gaussBeam_peak_monotone_witness :
    (0 : ℝ) < (⟨⟨0, 0⟩, 1, 1⟩ : GaussBeam ℝ).baseIntensity ∧
    (0 : ℝ) < (⟨⟨0, 0⟩, 1, 1⟩ : GaussBeam ℝ).radius ∧
    (⟨⟨0, 0⟩, 1, 1⟩ : GaussBeam ℝ).intensity ⟨Real.sqrt, Real.exp, Real.pi⟩ 1 0 <
      (⟨⟨0, 0⟩, 1, 1⟩ : GaussBeam ℝ).intensity ⟨Real.sqrt, Real.exp, Real.pi⟩ 0 0 :=
  ⟨one_pos, one_pos,
    (gaussBeam_peak_monotone ⟨⟨0, 0⟩, 1, 1⟩ one_pos one_pos).2.1 0 0 1 0 (by simp)⟩

/-- The integral of a shifted one-dimensional Gaussian. -/
theorem integral_gaussian_shift (a c : ℝ) :
    ∫ x : ℝ, Real.exp (-a * (x - c) ^ 2) = Real.sqrt (Real.pi / a) := by
  rw [MeasureTheory.integral_sub_right_eq_self (fun x : ℝ => Real.exp (-a * x ^ 2)) c]
  exact integral_gaussian a

/-- The integral over the plane of a product of two shifted Gaussians. -/
theorem integral_gaussian_plane (K a cx cy : ℝ) :
    ∫ p : ℝ × ℝ, K * (Real.exp (-a * (p.1 - cx) ^ 2) * Real.exp (-a * (p.2 - cy) ^ 2))
      = K * (Real.sqrt (Real.pi / a) * Real.sqrt (Real.pi / a)) := by
  rw [MeasureTheory.integral_mul_left, MeasureTheory.Measure.volume_eq_prod,
    MeasureTheory.integral_prod_mul (fun x : ℝ => Real.exp (-a * (x - cx) ^ 2))
      (fun y : ℝ => Real.exp (-a * (y - cy) ^ 2)),
    integral_gaussian_shift, integral_gaussian_shift]

/-- The integral of the Gaussian beam profile over the plane, for a non-zero
radius: `I * (r * sqrt(2*pi))`. -/
theorem gaussBeam_integral_value (b : GaussBeam ℝ) (hr : b.radius ≠ 0) :
    ∫ p : ℝ × ℝ, b.intensity ⟨Real.sqrt, Real.exp, Real.pi⟩ p.1 p.2 =
      b.baseIntensity * (b.radius * Real.sqrt (2 * Real.pi)) := by
  have hfun : (fun p : ℝ × ℝ => b.intensity ⟨Real.sqrt, Real.exp, Real.pi⟩ p.1 p.2) =
      fun p : ℝ × ℝ => b.baseIntensity / (b.radius * Real.sqrt (2 * Real.pi)) *
        (Real.exp (-(1 / (2 * b.radius ^ 2)) * (p.1 - b.center.x) ^ 2) *
          Real.exp (-(1 / (2 * b.radius ^ 2)) * (p.2 - b.center.y) ^ 2)) := by
    funext p
    rw [gaussBeam_real_form, ← Real.exp_add]
    congr 2
    ring
  rw [hfun, integral_gaussian_plane]
  have h2pi : (0 : ℝ) < 2 * Real.pi := by positivity
  have hs : Real.sqrt (2 * Real.pi) ≠ 0 := (Real.sqrt_pos.mpr h2pi).ne.symm
  have hsq : Real.sqrt (2 * Real.pi) * Real.sqrt (2 * Real.pi) = 2 * Real.pi :=
    Real.mul_self_sqrt h2pi.le
  have hq : Real.sqrt (Real.pi / (1 / (2 * b.radius ^ 2))) *
      Real.sqrt (Real.pi / (1 / (2 * b.radius ^ 2))) = 2 * Real.pi * b.radius ^ 2 := by
    rw [Real.mul_self_sqrt (by positivity)]
    field_simp
    ring
  rw [hq, ← hsq]
  field_simp
  ring

/-- C6 as stated fails: for the Gaussian beam at the origin with radius 1 and
baseline intensity 1 the integral of the intensity over the plane is not the
baseline intensity. -/
theorem gaussBeam_integral_ne_baseline :
    ∫ p : ℝ × ℝ, (⟨⟨0, 0⟩, 1, 1⟩ : GaussBeam ℝ).intensity
        ⟨Real.sqrt, Real.exp, Real.pi⟩ p.1 p.2 ≠
      (⟨⟨0, 0⟩, 1, 1⟩ : GaussBeam ℝ).baseIntensity := by
  rw [gaussBeam_integral_value _ (by norm_num)]
  have h1 : (1 : ℝ) < Real.sqrt (2 * Real.pi) := by
    rw [Real.lt_sqrt (by norm_num)]
    have := Real.pi_gt_three
    linarith
  simp only [one_mul]
  exact h1.ne.symm

/-- C6 amended: for a Gaussian beam with radius `r > 0` and baseline intensity
`I`, the integral of the intensity over the whole plane is
`I * r * sqrt(2*pi)`. -/
theorem gaussBeam_integral_plane (b : GaussBeam ℝ) (hr : 0 < b.radius) :
    ∫ p : ℝ × ℝ, b.intensity ⟨Real.sqrt, Real.exp, Real.pi⟩ p.1 p.2 =
      b.baseIntensity * b.radius * Real.sqrt (2 * Real.pi) := by
  rw [gaussBeam_integral_value b hr.ne.symm, mul_assoc]

/-- C6 amended, at the beam at the origin with radius 2 and baseline 3. -/
theorem gaussBeam_integral_plane_witness :
    (0 : ℝ) < (⟨⟨0, 0⟩, 2, 3⟩ : GaussBeam ℝ).radius ∧
    ∫ p : ℝ × ℝ, (⟨⟨0, 0⟩, 2, 3⟩ : GaussBeam ℝ).intensity
        ⟨Real.sqrt, Real.exp, Real.pi⟩ p.1 p.2 =
      (⟨⟨0, 0⟩, 2, 3⟩ : GaussBeam ℝ).baseIntensity * (⟨⟨0, 0⟩, 2, 3⟩ : GaussBeam ℝ).radius
        * Real.sqrt (2 * Real.pi) :=
  ⟨two_pos, gaussBeam_integral_plane ⟨⟨0, 0⟩, 2, 3⟩ two_pos⟩

/-! ## The time loop: kinematics and termination -/

section Loop

variable {α : Type} [LinearOrderedField α]

/-- Time, velocity and position after `n` passes, from any state with zero
velocity at time zero. -/
theorem afterTicks_kinematics (lm : CMath α) (grid : Circle α) (dt : α) (s : SimState α)
    (ht : s.time = 0) (hv : s.beamVelocity = 0) (n : Nat) :
    (afterTicks lm grid dt n s).time = (n : α) * dt ∧
    (afterTicks lm grid dt n s).beamVelocity = -981 * (n : α) * dt ∧
    (afterTicks lm grid dt n s).beamPosition =
      s.beamPosition - 981 * dt ^ 2 * (n : α) * ((n : α) + 1) / 2 := by
  induction n with
  | zero => simp [afterTicks, ht, hv]
  | succ n ih =>
    obtain ⟨h1, h2, h3⟩ := ih
    rw [afterTicks_succ]
    simp only [tick, g, h1, h2, h3, Nat.cast_succ]
    refine ⟨by ring, by ring, by ring⟩

/-- C7: the loop integrates by semi-implicit Euler.  After tick 1 the velocity
is `-981*dt` and the position `startHeight - 981*dt^2`; after `n` ticks the
velocity is `-981*n*dt` and the position
`startHeight - 981*dt^2*n*(n+1)/2`, which for `dt ≠ 0` and `n ≥ 1` is not the
explicit-Euler value `startHeight - 981*dt^2*n*(n-1)/2`. -/
theorem kinematics_semi_implicit (lm : CMath α) (startHeight gridRadius dt : α)
    (beam : Beam α) (heap : Nat → α) (n : Nat) :
    (afterTicks lm (detector gridRadius) dt 1
        (initState startHeight gridRadius beam heap)).beamVelocity = -981 * dt ∧
    (afterTicks lm (detector gridRadius) dt 1
        (initState startHeight gridRadius beam heap)).beamPosition
      = startHeight - 981 * dt ^ 2 ∧
    (afterTicks lm (detector gridRadius) dt n
        (initState startHeight gridRadius beam heap)).beamVelocity = -981 * (n : α) * dt ∧
    (afterTicks lm (detector gridRadius) dt n
        (initState startHeight gridRadius beam heap)).beamPosition
      = startHeight - 981 * dt ^ 2 * (n : α) * ((n : α) + 1) / 2 ∧
    (dt ≠ 0 → 0 < n →
      (afterTicks lm (detector gridRadius) dt n
          (initState startHeight gridRadius beam heap)).beamPosition
        ≠ startHeight - 981 * dt ^ 2 * (n : α) * ((n : α) - 1) / 2) := by
  have h1 := afterTicks_kinematics lm (detector gridRadius) dt
    (initState startHeight gridRadius beam heap) rfl rfl 1
  have hn := afterTicks_kinematics lm (detector gridRadius) dt
    (initState startHeight gridRadius beam heap) rfl rfl n
  have hpos : (initState startHeight gridRadius beam heap).beamPosition = startHeight := rfl
  rw [hpos] at h1 hn
  refine ⟨?_, ?_, hn.2.1, hn.2.2, ?_⟩
  · rw [h1.2.1]; simp
  · rw [h1.2.2]; simp only [Nat.cast_one]; ring
  · intro hdt hpos' heq
    rw [hn.2.2] at heq
    have hn0 : (n : α) ≠ 0 := Nat.cast_ne_zero.mpr (by omega)
    have hz : 981 * dt ^ 2 * (n : α) = 0 := by linear_combination -heq
    have : (981 : α) * dt ^ 2 * (n : α) ≠ 0 := by positivity
    exact this hz

/-- C7 for a fall from 100 cm with `dt = 1/100`, after one tick. -/
theorem kinematics_semi_implicit_witness :
    ((1 / 100 : ℝ) ≠ 0) ∧ 0 < 1 ∧
    (afterTicks ⟨Real.sqrt, Real.exp, Real.pi⟩ (detector (15 / 100)) (1 / 100) 1
        (initState 100 (15 / 100) (.circle (CircleBeam.new ⟨0, 0⟩ 1 2))
          (fun _ => 0))).beamPosition
      ≠ 100 - 981 * (1 / 100 : ℝ) ^ 2 * ((1 : Nat) : ℝ) * (((1 : Nat) : ℝ) - 1) / 2 :=
  ⟨by norm_num, Nat.one_pos,
    (kinematics_semi_implicit ⟨Real.sqrt, Real.exp, Real.pi⟩ 100 (15 / 100) (1 / 100)
      (.circle (CircleBeam.new ⟨0, 0⟩ 1 2)) (fun _ => 0) 1).2.2.2.2
      (by norm_num) Nat.one_pos⟩

/-- C8: for `dt > 0` and `endTime ≥ 0` the loop terminates: with any fuel of at
least `ceil(endTime/dt)` it returns after exactly `ceil(endTime/dt)` passes,
which is `endTime/dt` when that quotient is a natural number, and the time at
exit satisfies `endTime ≤ time < endTime + dt`. -/
theorem timeLoop_terminates_ceil [FloorRing α] (lm : CMath α)
    (startHeight gridRadius dt endTime : α) (beam : Beam α) (heap : Nat → α)
    (hdt : 0 < dt) (hE : 0 ≤ endTime) :
    (∀ fuel, ⌈endTime / dt⌉₊ ≤ fuel →
      ∃ s, timeLoop lm (detector gridRadius) dt endTime fuel 0
            (initState startHeight gridRadius beam heap) = some (⌈endTime / dt⌉₊, s) ∧
        s = afterTicks lm (detector gridRadius) dt ⌈endTime / dt⌉₊
            (initState startHeight gridRadius beam heap) ∧
        endTime ≤ s.time ∧ s.time < endTime + dt) ∧
    (∀ k : Nat, endTime / dt = (k : α) → ⌈endTime / dt⌉₊ = k) := by
  have htime : ∀ j, (afterTicks lm (detector gridRadius) dt j
      (initState startHeight gridRadius beam heap)).time = (j : α) * dt := fun j =>
    (afterTicks_kinematics lm (detector gridRadius) dt
      (initState startHeight gridRadius beam heap) rfl rfl j).1
  have hq : 0 ≤ endTime / dt := div_nonneg hE hdt.le
  have hge : endTime ≤ (⌈endTime / dt⌉₊ : α) * dt :=
    (div_le_iff₀ hdt).mp (Nat.le_ceil _)
  have hlt : (⌈endTime / dt⌉₊ : α) * dt < endTime + dt := by
    have h := Nat.ceil_lt_add_one hq
    have h2 := mul_lt_mul_of_pos_right h hdt
    rwa [add_mul, div_mul_cancel₀ _ hdt.ne.symm, one_mul] at h2
  refine ⟨?_, ?_⟩
  · intro fuel hfuel
    refine ⟨_, ?_, rfl, ?_, ?_⟩
    · apply timeLoop_exact lm (detector gridRadius) dt endTime
        (initState startHeight gridRadius beam heap) ⌈endTime / dt⌉₊ _ _
        ⌈endTime / dt⌉₊ 0 fuel (by omega) hfuel
      · intro j hj
        rw [htime]
        exact (lt_div_iff₀ hdt).mp (Nat.lt_ceil.mp hj)
      · rw [htime]
        exact not_lt.mpr hge
    · rw [htime]; exact hge
    · rw [htime]; exact hlt
  · intro k hk
    rw [hk, Nat.ceil_natCast]

/-- C8 for `dt = 1/4` and `endTime = 1`: four passes. -/
theorem timeLoop_terminates_ceil_witness :
    (0 : ℝ) < 1 / 4 ∧ (0 : ℝ) ≤ 1 ∧ ⌈(1 : ℝ) / (1 / 4)⌉₊ = 4 ∧
    ∃ s, timeLoop ⟨Real.sqrt, Real.exp, Real.pi⟩ (detector (15 / 100)) (1 / 4) (1 : ℝ) 4 0
          (initState 100 (15 / 100) (.circle (CircleBeam.new ⟨0, 0⟩ 1 2)) (fun _ => 0))
        = some (⌈(1 : ℝ) / (1 / 4)⌉₊, s) ∧
      s = afterTicks ⟨Real.sqrt, Real.exp, Real.pi⟩ (detector (15 / 100)) (1 / 4)
          ⌈(1 : ℝ) / (1 / 4)⌉₊
          (initState 100 (15 / 100) (.circle (CircleBeam.new ⟨0, 0⟩ 1 2)) (fun _ => 0)) ∧
      1 ≤ s.time ∧ s.time < 1 + 1 / 4 := by
  have hc : ⌈(1 : ℝ) / (1 / 4)⌉₊ = 4 := by
    rw [show (1 : ℝ) / (1 / 4) = ((4 : Nat) : ℝ) by norm_num, Nat.ceil_natCast]
  exact ⟨by norm_num, by norm_num, hc,
    (timeLoop_terminates_ceil ⟨Real.sqrt, Real.exp, Real.pi⟩ 100 (15 / 100) (1 / 4) (1 : ℝ)
      (.circle (CircleBeam.new ⟨0, 0⟩ 1 2)) (fun _ => 0) (by norm_num) (by norm_num)).1 4
      (by rw [hc])⟩

/-! ## The time loop: accumulated dose -/

/-- The running sum: on a map with index vectors `0..R-1` and `0..C-1`, after
`n` passes the frame of the map is unchanged and the slot of the pair `(i, j)`
holds its initial value plus the sum, over the passes, of the masked field of
the pass at the sample point of the pair. -/
theorem afterTicks_running_sum (lm : CMath α) (grid : Circle α) (dt : α) (s0 : SimState α)
    (R C : Nat) (hr : s0.map.rows = List.range R) (hc : s0.map.cols = List.range C)
    {i j : Nat} (hi : i < R) (hj : j < C) (v0 : α)
    (hv : s0.map.data[i * C + j]? = some v0) (n : Nat) :
    (afterTicks lm grid dt n s0).map.rect = s0.map.rect ∧
    (afterTicks lm grid dt n s0).map.spacingX = s0.map.spacingX ∧
    (afterTicks lm grid dt n s0).map.spacingY = s0.map.spacingY ∧
    (afterTicks lm grid dt n s0).map.rows = s0.map.rows ∧
    (afterTicks lm grid dt n s0).map.cols = s0.map.cols ∧
    (afterTicks lm grid dt n s0).map.data[i * C + j]? =
      some (v0 + ((List.range n).map fun k =>
        maskedField lm grid (afterTicks lm grid dt (k + 1) s0).beam dt
          (s0.map.rect.tl.x + (i : α) * s0.map.spacingX)
          (s0.map.rect.tl.y + (j : α) * s0.map.spacingY)).sum) := by
  induction n with
  | zero => simp [afterTicks, hv]
  | succ n ih =>
    obtain ⟨h1, h2, h3, h4, h5, h6⟩ := ih
    have hmap : (afterTicks lm grid dt (n + 1) s0).map =
        (afterTicks lm grid dt n s0).map.accumulate
          (maskedField lm grid (afterTicks lm grid dt (n + 1) s0).beam dt) := by
      rw [afterTicks_succ]; rfl
    obtain ⟨g1, g2, g3, g4, g5, g6⟩ := accumulate_spec
      (maskedField lm grid (afterTicks lm grid dt (n + 1) s0).beam dt)
      (afterTicks lm grid dt n s0).map
    rw [hmap]
    refine ⟨g1.trans h1, g2.trans h2, g3.trans h3, g4.trans h4, g5.trans h5, ?_⟩
    rw [g6, h6, contrib_range _ _ R C (h4.trans hr) (h5.trans hc) hi hj, h1, h2, h3]
    simp only [Option.map_some', List.range_succ, List.map_append, List.sum_append,
      List.map_cons, List.map_nil, List.sum_cons, List.sum_nil, add_zero, add_assoc]

/-- The beam of a circle-beam run stays a circle beam with the same radius and
baseline intensity, centred at `(0, beamPosition)` after every pass. -/
theorem afterTicks_circle_beam (lm : CMath α) (grid : Circle α) (dt : α) (s0 : SimState α)
    (b0 : CircleBeam α) (hb : s0.beam = .circle b0) (n : Nat) :
    (afterTicks lm grid dt (n + 1) s0).beam =
      .circle ⟨⟨⟨0, (afterTicks lm grid dt (n + 1) s0).beamPosition⟩, b0.circle.radius⟩,
        b0.baseIntensity⟩ := by
  have hrad : ∀ m, ∃ c, (afterTicks lm grid dt m s0).beam =
      .circle ⟨⟨c, b0.circle.radius⟩, b0.baseIntensity⟩ := by
    intro m
    induction m with
    | zero => exact ⟨b0.circle.center, by simpa [afterTicks] using hb⟩
    | succ m ih =>
      obtain ⟨c, hc⟩ := ih
      rw [afterTicks_succ]
      simp only [tick, hc, Beam.setPosition, CircleBeam.setPosition]
      exact ⟨_, rfl⟩
  obtain ⟨c, hc⟩ := hrad n
  rw [afterTicks_succ]
  simp only [tick, hc, Beam.setPosition, CircleBeam.setPosition]

/-- A sum of terms that are `a` on hits and `0` otherwise is `a` times the
number of hits. -/
theorem sum_indicator_eq_count (a : α) (hit : Nat → Bool) (n : Nat) :
    ((List.range n).map fun k => if hit k then a else 0).sum =
      a * (((List.range n).filter hit).length : α) := by
  induction n with
  | zero => simp
  | succ n ih =>
    rw [List.range_succ, List.map_append, List.sum_append, ih, List.filter_append,
      List.length_append]
    by_cases h : hit n <;> simp [h, mul_add]

/-- For `dt > 0` the loop returns after `ceil(endTime/dt)` passes, given at
least that much fuel. -/
theorem timeLoop_ceil [FloorRing α] (lm : CMath α) (grid : Circle α) (dt endTime : α)
    (s0 : SimState α) (ht : s0.time = 0) (hv : s0.beamVelocity = 0) (hdt : 0 < dt)
    (fuel : Nat) (hfuel : ⌈endTime / dt⌉₊ ≤ fuel) :
    timeLoop lm grid dt endTime fuel 0 s0 =
      some (⌈endTime / dt⌉₊, afterTicks lm grid dt ⌈endTime / dt⌉₊ s0) := by
  have htime : ∀ j, (afterTicks lm grid dt j s0).time = (j : α) * dt := fun j =>
    (afterTicks_kinematics lm grid dt s0 ht hv j).1
  apply timeLoop_exact lm grid dt endTime s0 ⌈endTime / dt⌉₊ _ _
    ⌈endTime / dt⌉₊ 0 fuel (by omega) hfuel
  · intro j hj
    rw [htime]
    exact (lt_div_iff₀ hdt).mp (Nat.lt_ceil.mp hj)
  · rw [htime]
    exact not_lt.mpr ((div_le_iff₀ hdt).mp (Nat.le_ceil _))

/-- The cells of the map of `main` after `n` passes, from zeroed storage: the
sum over the passes of the masked field at the sample point. -/
theorem afterTicks_cell_sum (lm : CMath α) (startHeight gridRadius dt : α)
    (beam : Beam α) (heap : Nat → α) (hz : ∀ k, k < 50 * 50 → heap k = 0)
    {i j : Nat} (hi : i < 50) (hj : j < 50) (n : Nat) :
    (afterTicks lm (detector gridRadius) dt n
        (initState startHeight gridRadius beam heap)).map.samplePoint i j =
      (initState startHeight gridRadius beam heap).map.samplePoint i j ∧
    (afterTicks lm (detector gridRadius) dt n
        (initState startHeight gridRadius beam heap)).map.cell i j =
      some (((List.range n).map fun k =>
        maskedField lm (detector gridRadius)
          (afterTicks lm (detector gridRadius) dt (k + 1)
            (initState startHeight gridRadius beam heap)).beam dt
          ((initState startHeight gridRadius beam heap).map.samplePoint i j).x
          ((initState startHeight gridRadius beam heap).map.samplePoint i j).y).sum) := by
  obtain ⟨_, _, _, n4, n5, _⟩ :=
    new_shape (outerSquare (detector gridRadius)) 50 50 heap
  have hk : i * 50 + j < 50 * 50 := flat_index_lt hi hj
  have hv : (initState startHeight gridRadius beam heap).map.data[i * 50 + j]? = some 0 := by
    have := new_data (outerSquare (detector gridRadius)) 50 50 heap hk
    rw [hz _ hk] at this
    exact this
  obtain ⟨h1, h2, h3, _, h5, h6⟩ := afterTicks_running_sum lm (detector gridRadius) dt
    (initState startHeight gridRadius beam heap) 50 50 n4 n5 hi hj 0 hv n
  constructor
  · simp only [PointMap.samplePoint, h1, h2, h3]
  · have hlen : (afterTicks lm (detector gridRadius) dt n
        (initState startHeight gridRadius beam heap)).map.cols.length = 50 := by
      rw [h5]
      exact (congrArg List.length n5).trans (List.length_range 50)
    unfold PointMap.cell
    rw [hlen, h6, zero_add]
    rfl

/-- C9: in every run from zeroed storage, with either beam and any parameters,
after every tick each cell whose sample point is not strictly inside the
detector circle holds 0; so does each such cell of the map the loop returns. -/
theorem outside_detector_stays_zero (lm : CMath α)
    (startHeight gridRadius dt endTime : α) (beam : Beam α) (heap : Nat → α)
    (hz : ∀ k, k < 50 * 50 → heap k = 0) :
    (∀ n i j, i < 50 → j < 50 →
      (detector gridRadius).contains
        ((afterTicks lm (detector gridRadius) dt n
          (initState startHeight gridRadius beam heap)).map.samplePoint i j) = false →
      (afterTicks lm (detector gridRadius) dt n
        (initState startHeight gridRadius beam heap)).map.cell i j = some 0) ∧
    (∀ fuel k s,
      timeLoop lm (detector gridRadius) dt endTime fuel 0
        (initState startHeight gridRadius beam heap) = some (k, s) →
      ∀ i j, i < 50 → j < 50 →
        (detector gridRadius).contains (s.map.samplePoint i j) = false →
        s.map.cell i j = some 0) := by
  have key : ∀ n i j, i < 50 → j < 50 →
      (detector gridRadius).contains
        ((afterTicks lm (detector gridRadius) dt n
          (initState startHeight gridRadius beam heap)).map.samplePoint i j) = false →
      (afterTicks lm (detector gridRadius) dt n
        (initState startHeight gridRadius beam heap)).map.cell i j = some 0 := by
    intro n i j hi hj hout
    obtain ⟨hp, hcell⟩ := afterTicks_cell_sum lm startHeight gridRadius dt beam heap hz hi hj n
    rw [hp] at hout
    rw [hcell]
    congr 1
    apply List.sum_eq_zero
    intro v hv
    simp only [List.mem_map, List.mem_range] at hv
    obtain ⟨k, _, rfl⟩ := hv
    simp only [maskedField]
    rw [if_neg]
    change ¬ (detector gridRadius).contains
      ((initState startHeight gridRadius beam heap).map.samplePoint i j) = true
    simp [hout]
  refine ⟨key, ?_⟩
  intro fuel k s hrun i j hi hj hout
  obtain ⟨d, _, hs⟩ := timeLoop_result lm (detector gridRadius) dt endTime fuel 0 _ k s hrun
  subst hs
  exact key d i j hi hj hout

/-- C9 for the corner cell (0, 0) of the map around a detector of radius 0.15,
after three ticks of a circle-beam run. -/
theorem outside_detector_stays_zero_witness :
    (∀ k, k < 50 * 50 → (fun _ : Nat => (0 : ℝ)) k = 0) ∧ 0 < 50 ∧
    (detector (15 / 100 : ℝ)).contains
      ((afterTicks ⟨Real.sqrt, Real.exp, Real.pi⟩ (detector (15 / 100)) (1 / 100) 3
        (initState 100 (15 / 100) (.circle (CircleBeam.new ⟨0, 0⟩ 1 2))
          (fun _ => 0))).map.samplePoint 0 0) = false ∧
    (afterTicks ⟨Real.sqrt, Real.exp, Real.pi⟩ (detector (15 / 100)) (1 / 100) 3
      (initState 100 (15 / 100) (.circle (CircleBeam.new ⟨0, 0⟩ 1 2))
        (fun _ => 0))).map.cell 0 0 = some 0 := by
  have hout : (detector (15 / 100 : ℝ)).contains
      ((afterTicks ⟨Real.sqrt, Real.exp, Real.pi⟩ (detector (15 / 100)) (1 / 100) 3
        (initState 100 (15 / 100) (.circle (CircleBeam.new ⟨0, 0⟩ 1 2))
          (fun _ => 0))).map.samplePoint 0 0) = false := by
    rw [(afterTicks_cell_sum ⟨Real.sqrt, Real.exp, Real.pi⟩ 100 (15 / 100) (1 / 100)
      (.circle (CircleBeam.new ⟨0, 0⟩ 1 2)) (fun _ => 0) (fun _ _ => rfl)
      (by norm_num : 0 < 50) (by norm_num : 0 < 50) 3).1]
    simp only [detector, Circle.contains, initState, PointMap.new, PointMap.samplePoint,
      outerSquare, Point.sub, Point.add, Rect.width, Rect.height, decide_eq_false_iff_not]
    norm_num
  exact ⟨fun _ _ => rfl, by norm_num, hout,
    (outside_detector_stays_zero ⟨Real.sqrt, Real.exp, Real.pi⟩ 100 (15 / 100) (1 / 100) 1
      (.circle (CircleBeam.new ⟨0, 0⟩ 1 2)) (fun _ => 0) (fun _ _ => rfl)).1 3 0 0
      (by norm_num) (by norm_num) hout⟩

/-- The masked field of a circle beam at a point strictly inside the detector:
`I * dt` inside the disk of the beam, `0` outside. -/
theorem maskedField_circle (lm : CMath α) (grid : Circle α) (c : Point α) (r I dt : α)
    (p : Point α) (hin : grid.contains p = true) :
    maskedField lm grid (.circle ⟨⟨c, r⟩, I⟩) dt p.x p.y =
      if (Circle.mk c r).contains p then I * dt else 0 := by
  have hp : (⟨p.x, p.y⟩ : Point α) = p := rfl
  simp only [maskedField, Beam.intensity, CircleBeam.intensity, hp, hin, if_true]
  split_ifs <;> simp

/-- The dose of a cell inside the detector after `n` passes of a circle-beam
run from zeroed storage: `I * dt` times the number of passes at which the
sample point was strictly inside the disk of the beam. -/
theorem circle_run_cell (lm : CMath α) (startHeight gridRadius beamRadius intensity dt : α)
    (heap : Nat → α) (hz : ∀ k, k < 50 * 50 → heap k = 0)
    {i j : Nat} (hi : i < 50) (hj : j < 50)
    (hin : (detector gridRadius).contains
      ((initState startHeight gridRadius
        (.circle (CircleBeam.new ⟨0, 0⟩ beamRadius intensity)) heap).map.samplePoint i j)
        = true) (n : Nat) :
    (afterTicks lm (detector gridRadius) dt n
        (initState startHeight gridRadius
          (.circle (CircleBeam.new ⟨0, 0⟩ beamRadius intensity)) heap)).map.cell i j =
      some (intensity * dt *
        (hitCount lm (detector gridRadius) dt
          (initState startHeight gridRadius
            (.circle (CircleBeam.new ⟨0, 0⟩ beamRadius intensity)) heap) beamRadius
          ((initState startHeight gridRadius
            (.circle (CircleBeam.new ⟨0, 0⟩ beamRadius intensity)) heap).map.samplePoint i j)
          n : α)) := by
  rw [(afterTicks_cell_sum lm startHeight gridRadius dt _ heap hz hi hj n).2]
  unfold hitCount
  rw [← sum_indicator_eq_count]
  refine congrArg some ?_
  have hmap : ∀ (a b : List α), a = b → a.sum = b.sum := fun _ _ h => by rw [h]
  refine hmap _ _ (List.map_congr_left ?_)
  intro k _
  have hb := afterTicks_circle_beam lm (detector gridRadius) dt
    (initState startHeight gridRadius
      (.circle (CircleBeam.new ⟨0, 0⟩ beamRadius intensity)) heap)
    (CircleBeam.new ⟨0, 0⟩ beamRadius intensity) rfl k
  rw [hb]
  exact maskedField_circle lm (detector gridRadius) _ beamRadius intensity dt _ hin

/-- C10 amended: in exact arithmetic, in a circle-beam run with `I > 0` and
`dt > 0` from zeroed storage the loop returns, and a cell whose sample point is strictly inside the
detector ends with the dose `I * dt` times the number of ticks at which the
point was strictly inside the disk of the beam; that dose is positive when
there is such a tick. -/
theorem circle_run_dose [FloorRing α] (lm : CMath α)
    (startHeight gridRadius beamRadius intensity dt endTime : α) (heap : Nat → α)
    (hI : 0 < intensity) (hdt : 0 < dt) (hz : ∀ k, k < 50 * 50 → heap k = 0)
    (i j : Nat) (hi : i < 50) (hj : j < 50)
    (hin : (detector gridRadius).contains
      ((initState startHeight gridRadius
        (.circle (CircleBeam.new ⟨0, 0⟩ beamRadius intensity)) heap).map.samplePoint i j)
        = true)
    (fuel : Nat) (hfuel : ⌈endTime / dt⌉₊ ≤ fuel) :
    ∃ s, timeLoop lm (detector gridRadius) dt endTime fuel 0
          (initState startHeight gridRadius
            (.circle (CircleBeam.new ⟨0, 0⟩ beamRadius intensity)) heap)
        = some (⌈endTime / dt⌉₊, s) ∧
      s.map.cell i j = some (intensity * dt *
        (hitCount lm (detector gridRadius) dt
          (initState startHeight gridRadius
            (.circle (CircleBeam.new ⟨0, 0⟩ beamRadius intensity)) heap) beamRadius
          ((initState startHeight gridRadius
            (.circle (CircleBeam.new ⟨0, 0⟩ beamRadius intensity)) heap).map.samplePoint i j)
          ⌈endTime / dt⌉₊ : α)) ∧
      ((∃ k, k < ⌈endTime / dt⌉₊ ∧
          (Circle.mk ⟨0, (afterTicks lm (detector gridRadius) dt (k + 1)
            (initState startHeight gridRadius
              (.circle (CircleBeam.new ⟨0, 0⟩ beamRadius intensity)) heap)).beamPosition⟩
            beamRadius).contains
            ((initState startHeight gridRadius
              (.circle (CircleBeam.new ⟨0, 0⟩ beamRadius intensity)) heap).map.samplePoint
                i j) = true) →
        ∃ v, s.map.cell i j = some v ∧ 0 < v) := by
  refine ⟨_, timeLoop_ceil lm (detector gridRadius) dt endTime _ rfl rfl hdt fuel hfuel,
    circle_run_cell lm startHeight gridRadius beamRadius intensity dt heap hz hi hj hin _, ?_⟩
  rintro ⟨k, hk, hhit⟩
  refine ⟨_, circle_run_cell lm startHeight gridRadius beamRadius intensity dt heap hz hi hj
    hin _, ?_⟩
  apply mul_pos (mul_pos hI hdt)
  rw [Nat.cast_pos]
  unfold hitCount
  apply List.length_pos_of_mem (a := k)
  rw [List.mem_filter]
  exact ⟨List.mem_range.mpr hk, hhit⟩

/-- C10 for a fall from height 1 with `dt = endTime = 1/100`, circle beam of
radius 1 and intensity 2, detector radius 0.15, and the centre cell (25, 25):
the loop makes one pass, at which the cell centre (0, 0) is strictly inside
the disk of the beam around (0, 0.9019), and the cell ends with a positive
dose. -/
theorem circle_run_dose_witness :
    (0 : ℝ) < 2 ∧ (0 : ℝ) < 1 / 100 ∧
    (∀ k, k < 50 * 50 → (fun _ : Nat => (0 : ℝ)) k = 0) ∧ 25 < 50 ∧
    (detector (15 / 100 : ℝ)).contains
      ((initState 1 (15 / 100)
        (.circle (CircleBeam.new ⟨0, 0⟩ 1 2)) (fun _ => 0)).map.samplePoint 25 25) = true ∧
    ⌈(1 / 100 : ℝ) / (1 / 100)⌉₊ ≤ 1 ∧
    (∃ k, k < ⌈(1 / 100 : ℝ) / (1 / 100)⌉₊ ∧
      (Circle.mk ⟨0, (afterTicks ⟨Real.sqrt, Real.exp, Real.pi⟩ (detector (15 / 100 : ℝ))
        (1 / 100) (k + 1)
        (initState 1 (15 / 100) (.circle (CircleBeam.new ⟨0, 0⟩ 1 2))
          (fun _ => 0))).beamPosition⟩ 1).contains
        ((initState 1 (15 / 100)
          (.circle (CircleBeam.new ⟨0, 0⟩ 1 2)) (fun _ => 0)).map.samplePoint 25 25)
        = true) ∧
    ∃ s, timeLoop ⟨Real.sqrt, Real.exp, Real.pi⟩ (detector (15 / 100)) (1 / 100) (1 / 100)
          1 0 (initState 1 (15 / 100) (.circle (CircleBeam.new ⟨0, 0⟩ 1 2)) (fun _ => 0))
        = some (⌈(1 / 100 : ℝ) / (1 / 100)⌉₊, s) ∧
      s.map.cell 25 25 = some (2 * (1 / 100) *
        (hitCount ⟨Real.sqrt, Real.exp, Real.pi⟩ (detector (15 / 100)) (1 / 100)
          (initState 1 (15 / 100) (.circle (CircleBeam.new ⟨0, 0⟩ 1 2)) (fun _ => 0)) 1
          ((initState 1 (15 / 100)
            (.circle (CircleBeam.new ⟨0, 0⟩ 1 2)) (fun _ => 0)).map.samplePoint 25 25)
          ⌈(1 / 100 : ℝ) / (1 / 100)⌉₊ : ℝ)) ∧
      ∃ v, s.map.cell 25 25 = some v ∧ 0 < v := by
  have hc : ⌈(1 / 100 : ℝ) / (1 / 100)⌉₊ = 1 := by
    rw [show (1 / 100 : ℝ) / (1 / 100) = ((1 : Nat) : ℝ) by norm_num, Nat.ceil_natCast]
  have hin : (detector (15 / 100 : ℝ)).contains
      ((initState 1 (15 / 100)
        (.circle (CircleBeam.new ⟨0, 0⟩ 1 2)) (fun _ => 0)).map.samplePoint 25 25) = true := by
    simp only [detector, Circle.contains, initState, PointMap.new, PointMap.samplePoint,
      outerSquare, Point.sub, Point.add, Rect.width, Rect.height, decide_eq_true_eq]
    norm_num
  have hpos : (afterTicks ⟨Real.sqrt, Real.exp, Real.pi⟩ (detector (15 / 100 : ℝ))
      (1 / 100) (0 + 1)
      (initState 1 (15 / 100) (.circle (CircleBeam.new ⟨0, 0⟩ 1 2))
        (fun _ => 0))).beamPosition = 9019 / 10000 := by
    rw [(afterTicks_kinematics ⟨Real.sqrt, Real.exp, Real.pi⟩ (detector (15 / 100 : ℝ))
      (1 / 100) (initState 1 (15 / 100) (.circle (CircleBeam.new ⟨0, 0⟩ 1 2)) (fun _ => 0))
      rfl rfl (0 + 1)).2.2]
    simp only [initState]
    norm_num
  have hhit : ∃ k, k < ⌈(1 / 100 : ℝ) / (1 / 100)⌉₊ ∧
      (Circle.mk ⟨0, (afterTicks ⟨Real.sqrt, Real.exp, Real.pi⟩ (detector (15 / 100 : ℝ))
        (1 / 100) (k + 1)
        (initState 1 (15 / 100) (.circle (CircleBeam.new ⟨0, 0⟩ 1 2))
          (fun _ => 0))).beamPosition⟩ 1).contains
        ((initState 1 (15 / 100)
          (.circle (CircleBeam.new ⟨0, 0⟩ 1 2)) (fun _ => 0)).map.samplePoint 25 25)
        = true := by
    refine ⟨0, by rw [hc]; exact Nat.one_pos, ?_⟩
    rw [hpos]
    simp only [Circle.contains, initState, PointMap.new, PointMap.samplePoint, detector,
      outerSquare, Point.sub, Point.add, Rect.width, Rect.height, decide_eq_true_eq]
    norm_num
  obtain ⟨s, h1, h2, h3⟩ := circle_run_dose ⟨Real.sqrt, Real.exp, Real.pi⟩ 1 (15 / 100) 1 2
    (1 / 100) (1 / 100) (fun _ => 0) (by norm_num) (by norm_num) (fun _ _ => rfl) 25 25
    (by norm_num) (by norm_num) hin 1 (by rw [hc])
  exact ⟨by norm_num, by norm_num, fun _ _ => rfl, by norm_num, hin, by rw [hc], hhit,
    s, h1, h2, h3 hhit⟩

end Loop

/-! ## Beam mutators -/

/-- C14 amended: for both beams, in any arithmetic, `setPosition(x0, y0)`
replaces only the centre (radius and baseline are kept, the intensity is that
of the same beam centred at `(x0, y0)` whatever the old centre was), and
`changeIntensity(dI)` replaces the baseline `I` by the sum `I + dI` of that
arithmetic and keeps centre and radius.  In exact arithmetic two changes `a`
then `b` are one change by `a + b`. -/
theorem beam_mutators_frame :
    (∀ (β : Type) [Add β] [Sub β] [Mul β] [Div β] [Neg β] [Zero β] [NatCast β]
        [LT β] [DecidableRel (fun a b : β => a < b)] (lm : CMath β),
      (∀ (c : Point β) (r I x0 y0 x y : β),
        (CircleBeam.setPosition ⟨⟨c, r⟩, I⟩ x0 y0) = ⟨⟨⟨x0, y0⟩, r⟩, I⟩ ∧
        (Beam.setPosition (.circle ⟨⟨c, r⟩, I⟩) x0 y0).intensity lm x y =
          (Beam.circle ⟨⟨⟨x0, y0⟩, r⟩, I⟩).intensity lm x y) ∧
      (∀ (c : Point β) (r I x0 y0 x y : β),
        (GaussBeam.setPosition ⟨c, r, I⟩ x0 y0) = ⟨⟨x0, y0⟩, r, I⟩ ∧
        (Beam.setPosition (.gauss ⟨c, r, I⟩) x0 y0).intensity lm x y =
          (Beam.gauss ⟨⟨x0, y0⟩, r, I⟩).intensity lm x y) ∧
      (∀ (c : Point β) (r I dI x y : β),
        (CircleBeam.changeIntensity ⟨⟨c, r⟩, I⟩ dI) = ⟨⟨c, r⟩, I + dI⟩ ∧
        (Beam.changeIntensity (.circle ⟨⟨c, r⟩, I⟩) dI).intensity lm x y =
          (Beam.circle ⟨⟨c, r⟩, I + dI⟩).intensity lm x y) ∧
      (∀ (c : Point β) (r I dI x y : β),
        (GaussBeam.changeIntensity ⟨c, r, I⟩ dI) = ⟨c, r, I + dI⟩ ∧
        (Beam.changeIntensity (.gauss ⟨c, r, I⟩) dI).intensity lm x y =
          (Beam.gauss ⟨c, r, I + dI⟩).intensity lm x y)) ∧
    (∀ (α : Type) [LinearOrderedField α] (b : Beam α) (a d : α),
      (b.changeIntensity a).changeIntensity d = b.changeIntensity (a + d)) := by
  constructor
  · intro β _ _ _ _ _ _ _ _ _ lm
    exact ⟨fun _ _ _ _ _ _ _ => ⟨rfl, rfl⟩, fun _ _ _ _ _ _ _ => ⟨rfl, rfl⟩,
      fun _ _ _ _ _ _ => ⟨rfl, rfl⟩, fun _ _ _ _ _ _ => ⟨rfl, rfl⟩⟩
  · intro α _ b a d
    cases b with
    | circle b => simp [Beam.changeIntensity, CircleBeam.changeIntensity, add_assoc]
    | gauss b => simp [Beam.changeIntensity, GaussBeam.changeIntensity, add_assoc]

/-! ## Bounds and aliasing of the flat indices -/

section Indices

variable {α : Type} [Add α] [Mul α] [NatCast α]

/-- The per-cell update of `accumulate` writes the slot `accumulateIndex`. -/
theorem cellUpdate_uses_accumulateIndex (f : α → α → α) (i j : Nat) (m : PointMap α) :
    (PointMap.cellUpdate f i m j).data =
      m.data.modify (fun v => v + f (m.rect.tl.x + (i : α) * m.spacingX)
        (m.rect.tl.y + (j : α) * m.spacingY)) (m.accumulateIndex i j) := rfl

/-- The triples of `write` are read from the slots `writeIndex`. -/
theorem write_uses_writeIndex [Zero α] (m : PointMap α) :
    m.write = (List.range m.cols.length).flatMap fun (i : Nat) =>
      (List.range m.rows.length).map fun (j : Nat) =>
        (m.rect.tl.x + (i : α) * m.spacingX, m.rect.tl.y + (j : α) * m.spacingY,
          m.data.getD (m.writeIndex i j) 0) := rfl

/-- The backing array keeps its length under `accumulate` calls. -/
theorem accumulateAll_length (fs : List (α → α → α)) (m : PointMap α) :
    (m.accumulateAll fs).data.length = m.data.length := by
  induction fs generalizing m with
  | nil => rfl
  | cons f fs ih =>
    simp only [PointMap.accumulateAll, List.foldl_cons] at *
    rw [ih]
    have hrow : ∀ (i : Nat) (cs : List Nat) (a : PointMap α),
        (cs.foldl (PointMap.cellUpdate f i) a).data.length = a.data.length := by
      intro i cs
      induction cs with
      | nil => intro a; rfl
      | cons c cs ihc =>
        intro a
        simp only [List.foldl_cons]
        rw [ihc]
        simp [PointMap.cellUpdate]
    have hcols : ∀ (i : Nat) (a : PointMap α),
        (PointMap.rowUpdate f a i).data.length = a.data.length := fun i a => hrow i a.cols a
    have hrows : ∀ (rs : List Nat) (a : PointMap α),
        (rs.foldl (PointMap.rowUpdate f) a).data.length = a.data.length := by
      intro rs
      induction rs with
      | nil => intro a; rfl
      | cons r rs ihr =>
        intro a
        simp only [List.foldl_cons]
        rw [ihr, hcols]
    exact hrows m.rows m

/-- C17 as stated fails: for `2^32` rows and `2^32` columns the product of the
counts is `2^64`, the `size_t` product is 0, so the backing array has no slot
at all, and already the flat index 0 of the pair (0, 0) is not below the
number of slots. -/
theorem alloc_size_wraps :
    (2 ^ 32 * 2 ^ 32 : Nat) ≠ 0 ∧
    (PointMap.new64 (⟨⟨0, 0⟩, ⟨1, 1⟩⟩ : Rect ℚ) (2 ^ 32) (2 ^ 32) (fun _ => 0)).rows.length
      = 2 ^ 32 ∧
    (PointMap.new64 (⟨⟨0, 0⟩, ⟨1, 1⟩⟩ : Rect ℚ) (2 ^ 32) (2 ^ 32) (fun _ => 0)).cols.length
      = 2 ^ 32 ∧
    (PointMap.new64 (⟨⟨0, 0⟩, ⟨1, 1⟩⟩ : Rect ℚ) (2 ^ 32) (2 ^ 32) (fun _ => 0)).data.length
      = 0 ∧
    ¬ ((PointMap.new64 (⟨⟨0, 0⟩, ⟨1, 1⟩⟩ : Rect ℚ) (2 ^ 32) (2 ^ 32)
          (fun _ => 0)).accumulateIndex64 0 0 <
        (PointMap.new64 (⟨⟨0, 0⟩, ⟨1, 1⟩⟩ : Rect ℚ) (2 ^ 32) (2 ^ 32)
          (fun _ => 0)).data.length) :=
  ⟨by norm_num,
    new64_wrapped (⟨⟨0, 0⟩, ⟨1, 1⟩⟩ : Rect ℚ) (2 ^ 32) (2 ^ 32) (fun _ => 0) (by norm_num)⟩

/-- C17 amended: for row and column counts whose product is below `2^64`
(equal or not), the backing array of an accumulator, fresh or after any
`accumulate` calls, has exactly `rows*cols` slots; every flat index
`accumulate` writes (`i < rows`, `j < cols`) and every flat index `write`
reads (`i < cols`, `j < rows`), computed in 64 bits, is the index without
wrap-around and is below `rows*cols`; and `accumulate` sends distinct in-range
pairs to distinct flat indices. -/
theorem flat_indices_in_bounds [Sub α] [Div α] (r : Rect α) (xp yp : Nat) (heap : Nat → α)
    (fs : List (α → α → α)) (hsize : yp * xp < 2 ^ 64) :
    ((PointMap.new64 r xp yp heap).accumulateAll fs).rows.length = yp ∧
    ((PointMap.new64 r xp yp heap).accumulateAll fs).cols.length = xp ∧
    ((PointMap.new64 r xp yp heap).accumulateAll fs).data.length = yp * xp ∧
    (∀ i j, i < yp → j < xp →
      ((PointMap.new64 r xp yp heap).accumulateAll fs).accumulateIndex64 i j = i * xp + j ∧
      ((PointMap.new64 r xp yp heap).accumulateAll fs).accumulateIndex64 i j < yp * xp) ∧
    (∀ i j, i < xp → j < yp →
      ((PointMap.new64 r xp yp heap).accumulateAll fs).writeIndex64 i j = i * yp + j ∧
      ((PointMap.new64 r xp yp heap).accumulateAll fs).writeIndex64 i j < yp * xp) ∧
    (∀ i j i0 j0, i < yp → j < xp → i0 < yp → j0 < xp →
      ((PointMap.new64 r xp yp heap).accumulateAll fs).accumulateIndex64 i j =
        ((PointMap.new64 r xp yp heap).accumulateAll fs).accumulateIndex64 i0 j0 →
      i = i0 ∧ j = j0) := by
  rw [new64_eq_new r xp yp heap hsize]
  obtain ⟨_, _, _, n4, n5, n6⟩ := new_shape r xp yp heap
  obtain ⟨a4, a5⟩ := accumulateAll_shape_any fs (PointMap.new r xp yp heap) yp xp n4 n5
  have hrows : ((PointMap.new r xp yp heap).accumulateAll fs).rows.length = yp := by
    rw [a4, List.length_range]
  have hcols : ((PointMap.new r xp yp heap).accumulateAll fs).cols.length = xp := by
    rw [a5, List.length_range]
  have hacc : ∀ i j, i < yp → j < xp → (i * xp + j) % 2 ^ 64 = i * xp + j := fun i j hi hj =>
    Nat.mod_eq_of_lt (lt_trans (flat_index_lt hi hj) hsize)
  have hwr : ∀ i j, i < xp → j < yp → (i * yp + j) % 2 ^ 64 = i * yp + j := fun i j hi hj =>
    Nat.mod_eq_of_lt (lt_trans (by rw [Nat.mul_comm yp xp]; exact flat_index_lt hi hj) hsize)
  refine ⟨hrows, hcols, by rw [accumulateAll_length, n6], ?_, ?_, ?_⟩
  · intro i j hi hj
    simp only [PointMap.accumulateIndex64, hcols, hacc i j hi hj]
    exact ⟨trivial, flat_index_lt hi hj⟩
  · intro i j hi hj
    simp only [PointMap.writeIndex64, hrows, hwr i j hi hj]
    refine ⟨trivial, ?_⟩
    rw [Nat.mul_comm yp xp]
    exact flat_index_lt hi hj
  · intro i j i0 j0 hi hj hi0 hj0 h
    simp only [PointMap.accumulateIndex64, hcols, hacc i j hi hj, hacc i0 j0 hi0 hj0] at h
    exact flat_index_inj hj hj0 h

/-- C17 amended, on a map with 3 columns and 2 rows, for the last pair of each
traversal. -/
theorem flat_indices_in_bounds_witness :
    2 * 3 < 2 ^ 64 ∧ (1 < 2 ∧ 2 < 3 ∧ 2 < 3 ∧ 1 < 2) ∧
    ((PointMap.new64 (⟨⟨0, 0⟩, ⟨3, 2⟩⟩ : Rect ℚ) 3 2 (fun _ => 0)).accumulateAll
      [fun x y => x + y]).accumulateIndex64 1 2 < 2 * 3 ∧
    ((PointMap.new64 (⟨⟨0, 0⟩, ⟨3, 2⟩⟩ : Rect ℚ) 3 2 (fun _ => 0)).accumulateAll
      [fun x y => x + y]).writeIndex64 2 1 < 2 * 3 :=
  ⟨by norm_num, by decide,
    ((flat_indices_in_bounds (⟨⟨0, 0⟩, ⟨3, 2⟩⟩ : Rect ℚ) 3 2 (fun _ => 0)
      [fun x y => x + y] (by norm_num)).2.2.2.1 1 2 (by decide) (by decide)).2,
    ((flat_indices_in_bounds (⟨⟨0, 0⟩, ⟨3, 2⟩⟩ : Rect ℚ) 3 2 (fun _ => 0)
      [fun x y => x + y] (by norm_num)).2.2.2.2.1 2 1 (by decide) (by decide)).2⟩

end Indices

/-! ## Rectangles and circles -/

section Shapes

variable {α : Type} [LinearOrderedField α]

/-- C18 amended: in exact arithmetic, for a circle of radius `r ≥ 0`,
`outerSquare` has width and height
`2r` and every point the circle contains lies strictly between the corners in
both coordinates; the map of `main` is built over `outerSquare` of the
detector circle. -/
theorem outerSquare_covers (c : Circle α) (hr : 0 ≤ c.radius) :
    (outerSquare c).width = 2 * c.radius ∧
    (outerSquare c).height = 2 * c.radius ∧
    (∀ p : Point α, c.contains p = true →
      (outerSquare c).tl.x < p.x ∧ p.x < (outerSquare c).br.x ∧
      (outerSquare c).tl.y < p.y ∧ p.y < (outerSquare c).br.y) ∧
    (∀ (startHeight gridRadius : α) (beam : Beam α) (heap : Nat → α),
      (initState startHeight gridRadius beam heap).map.rect =
        outerSquare (detector gridRadius)) := by
  refine ⟨?_, ?_, ?_, fun _ _ _ _ => rfl⟩
  · simp only [outerSquare, Rect.width, Point.add, Point.sub]; ring
  · simp only [outerSquare, Rect.height, Point.add, Point.sub]; ring
  · intro p hp
    simp only [Circle.contains, decide_eq_true_eq] at hp
    simp only [outerSquare, Point.add, Point.sub]
    have hx := mul_self_nonneg (c.center.x - p.x)
    have hy := mul_self_nonneg (c.center.y - p.y)
    refine ⟨?_, ?_, ?_, ?_⟩
    · by_contra h
      push_neg at h
      nlinarith
    · by_contra h
      push_neg at h
      nlinarith
    · by_contra h
      push_neg at h
      nlinarith
    · by_contra h
      push_neg at h
      nlinarith

/-- C18 amended, for the circle of radius 2 around (1, 1) and the point
(2, 0), over the rationals. -/
theorem outerSquare_covers_witness :
    (0 : ℚ) ≤ (⟨⟨1, 1⟩, 2⟩ : Circle ℚ).radius ∧
    (⟨⟨1, 1⟩, 2⟩ : Circle ℚ).contains ⟨2, 0⟩ = true ∧
    ((outerSquare (⟨⟨1, 1⟩, 2⟩ : Circle ℚ)).tl.x < (⟨2, 0⟩ : Point ℚ).x ∧
      (⟨2, 0⟩ : Point ℚ).x < (outerSquare (⟨⟨1, 1⟩, 2⟩ : Circle ℚ)).br.x ∧
      (outerSquare (⟨⟨1, 1⟩, 2⟩ : Circle ℚ)).tl.y < (⟨2, 0⟩ : Point ℚ).y ∧
      (⟨2, 0⟩ : Point ℚ).y < (outerSquare (⟨⟨1, 1⟩, 2⟩ : Circle ℚ)).br.y) := by
  have hc : (⟨⟨1, 1⟩, 2⟩ : Circle ℚ).contains ⟨2, 0⟩ = true := by
    simp only [Circle.contains, decide_eq_true_eq]
    norm_num
  exact ⟨by norm_num, hc,
    (outerSquare_covers (⟨⟨1, 1⟩, 2⟩ : Circle ℚ) (by norm_num)).2.2.1 ⟨2, 0⟩ hc⟩

/-- C19, the code: `width` and `height` are the differences of the corner
coordinates, but `center` is half the difference `tl - br` of the corners, not
their midpoint.  The rectangle from (0,0) to (2,2) gets the centre (-1,-1)
instead of (1,1), and `innerCircle(outerSquare(c))` for the unit circle `c`
around (1,1) is centred at (-1,-1). -/
theorem rect_center_is_half_difference :
    (∀ r : Rect α, r.width = r.br.x - r.tl.x ∧ r.height = r.br.y - r.tl.y ∧
      r.center = ⟨(r.tl.x - r.br.x) / 2, (r.tl.y - r.br.y) / 2⟩) ∧
    (⟨⟨0, 0⟩, ⟨2, 2⟩⟩ : Rect ℚ).center = ⟨-1, -1⟩ ∧
    (⟨((0 : ℚ) + 2) / 2, ((0 : ℚ) + 2) / 2⟩ : Point ℚ) = ⟨1, 1⟩ ∧
    (innerCircle (outerSquare (⟨⟨1, 1⟩, 1⟩ : Circle ℚ))).center = ⟨-1, -1⟩ ∧
    (⟨-1, -1⟩ : Point ℚ) ≠ (⟨⟨1, 1⟩, 1⟩ : Circle ℚ).center := by
  refine ⟨?_, ?_, ?_, ?_, ?_⟩
  · intro r
    refine ⟨rfl, rfl, ?_⟩
    simp only [Rect.center, Point.div, Point.scale, Point.sub, Point.mk.injEq]
    constructor <;> ring
  · simp only [Rect.center, Point.div, Point.scale, Point.sub, Point.mk.injEq]
    norm_num
  · norm_num
  · simp only [innerCircle, outerSquare, Rect.center, Point.div, Point.scale, Point.sub,
      Point.add, Point.mk.injEq]
    norm_num
  · simp only [ne_eq, Point.mk.injEq, not_and]
    norm_num

end Shapes

/-! ## The dump -/

section Dump

variable {α : Type} [LinearOrderedField α]

/-- The coordinates of the triples of `write` are pairwise distinct when both
spacings are non-zero. -/
theorem write_coords_nodup (m : PointMap α) (hx : m.spacingX ≠ 0) (hy : m.spacingY ≠ 0) :
    (m.write.map fun t => (t.1, t.2.1)).Nodup := by
  rw [write_eq_product_map, List.map_map]
  apply List.Nodup.map_on
  · rintro ⟨i, j⟩ _ ⟨i0, j0⟩ _ h
    simp only [Function.comp_apply, Prod.mk.injEq, add_right_inj] at h
    obtain ⟨h1, h2⟩ := h
    have e1 : (i : α) = (i0 : α) := mul_right_cancel₀ hx h1
    have e2 : (j : α) = (j0 : α) := mul_right_cancel₀ hy h2
    rw [Nat.cast_injective e1, Nat.cast_injective e2]
  · exact List.Nodup.product (List.nodup_range _) (List.nodup_range _)

/-- C15 amended: an accumulator, fresh or after any `accumulate` calls, dumps
exactly `rows*cols` triples, in any arithmetic.  In exact arithmetic, with
positive row and column counts over a rectangle of non-zero width and height,
no coordinate pair `(x, y)` occurs twice among them. -/
theorem write_count_and_distinct :
    (∀ (β : Type) [Add β] [Sub β] [Mul β] [Div β] [Zero β] [NatCast β]
        (r : Rect β) (xp yp : Nat) (heap : Nat → β) (fs : List (β → β → β)),
      ((PointMap.new r xp yp heap).accumulateAll fs).write.length =
        ((PointMap.new r xp yp heap).accumulateAll fs).rows.length *
          ((PointMap.new r xp yp heap).accumulateAll fs).cols.length ∧
      ((PointMap.new r xp yp heap).accumulateAll fs).write.length = yp * xp) ∧
    (∀ (γ : Type) [LinearOrderedField γ]
        (r : Rect γ) (xp yp : Nat) (heap : Nat → γ) (fs : List (γ → γ → γ)),
      0 < xp → 0 < yp → r.width ≠ 0 → r.height ≠ 0 →
      (((PointMap.new r xp yp heap).accumulateAll fs).write.map
        fun t => (t.1, t.2.1)).Nodup) := by
  constructor
  · intro β _ _ _ _ _ _ r xp yp heap fs
    obtain ⟨_, _, _, n4, n5, _⟩ := new_shape r xp yp heap
    obtain ⟨a4, a5⟩ := accumulateAll_shape_any fs (PointMap.new r xp yp heap) yp xp n4 n5
    have hrows : ((PointMap.new r xp yp heap).accumulateAll fs).rows.length = yp := by
      rw [a4, List.length_range]
    have hcols : ((PointMap.new r xp yp heap).accumulateAll fs).cols.length = xp := by
      rw [a5, List.length_range]
    exact ⟨by rw [write_length, Nat.mul_comm], by rw [write_length, hrows, hcols, Nat.mul_comm]⟩
  · intro γ _ r xp yp heap fs hxp hyp hw hh
    obtain ⟨_, n2, n3, _, _, _⟩ := new_shape r xp yp heap
    obtain ⟨_, a2, a3, _, _, _⟩ := accumulateAll_spec fs (PointMap.new r xp yp heap)
    have hxp0 : (xp : γ) ≠ 0 := Nat.cast_ne_zero.mpr hxp.ne.symm
    have hyp0 : (yp : γ) ≠ 0 := Nat.cast_ne_zero.mpr hyp.ne.symm
    apply write_coords_nodup
    · rw [a2, n2]; exact div_ne_zero hw hxp0
    · rw [a3, n3]; exact div_ne_zero hh hyp0

/-- C15 amended, on the 3 by 2 map over the rectangle from (0,0) to (3,2). -/
theorem write_count_and_distinct_witness :
    0 < 3 ∧ 0 < 2 ∧ (⟨⟨0, 0⟩, ⟨3, 2⟩⟩ : Rect ℚ).width ≠ 0 ∧
    (⟨⟨0, 0⟩, ⟨3, 2⟩⟩ : Rect ℚ).height ≠ 0 ∧
    (((PointMap.new (⟨⟨0, 0⟩, ⟨3, 2⟩⟩ : Rect ℚ) 3 2 (fun _ => 0)).accumulateAll
      [fun x y => x + y]).write.map fun t => (t.1, t.2.1)).Nodup := by
  have hw : (⟨⟨0, 0⟩, ⟨3, 2⟩⟩ : Rect ℚ).width ≠ 0 := by norm_num [Rect.width]
  have hh : (⟨⟨0, 0⟩, ⟨3, 2⟩⟩ : Rect ℚ).height ≠ 0 := by norm_num [Rect.height]
  exact ⟨by decide, by decide, hw, hh,
    write_count_and_distinct.2 ℚ (⟨⟨0, 0⟩, ⟨3, 2⟩⟩ : Rect ℚ) 3 2 (fun _ => 0)
      [fun x y => x + y] (by decide) (by decide) hw hh⟩

end Dump

/-! ## Order of the cell updates within one call -/

section CellOrder

variable {α : Type} [LinearOrderedField α]

/-- Applying the per-cell update along any list of index pairs keeps the frame
and adds to slot `k` the sum of the contributions of the pairs addressed to
`k`. -/
theorem applyCells_spec (f : α → α → α) (ps : List (Nat × Nat)) (m : PointMap α) :
    (m.applyCells f ps).rect = m.rect ∧
    (m.applyCells f ps).spacingX = m.spacingX ∧
    (m.applyCells f ps).spacingY = m.spacingY ∧
    (m.applyCells f ps).rows = m.rows ∧
    (m.applyCells f ps).cols = m.cols ∧
    ∀ k, (m.applyCells f ps).data[k]? =
      (m.data[k]?).map (fun v => v + (ps.map fun p =>
        if p.1 * m.cols.length + p.2 = k then
          f (m.rect.tl.x + (p.1 : α) * m.spacingX) (m.rect.tl.y + (p.2 : α) * m.spacingY)
        else 0).sum) := by
  induction ps generalizing m with
  | nil => simp [PointMap.applyCells]
  | cons q ps ih =>
    obtain ⟨h1, h2, h3, h4, h5, h6⟩ := ih (PointMap.cellUpdate f q.1 m q.2)
    obtain ⟨g1, g2, g3, g4, g5⟩ := cellUpdate_frame f q.1 q.2 m
    simp only [PointMap.applyCells, List.foldl_cons] at *
    refine ⟨h1.trans g1, h2.trans g2, h3.trans g3, h4.trans g4, h5.trans g5, ?_⟩
    intro k
    rw [h6 k, cellUpdate_data, g1, g2, g3, g5]
    cases m.data[k]? with
    | none => rfl
    | some v => simp [add_assoc]

/-- The contribution of one `accumulate` call to slot `k`, as one sum over the
index pairs of the nested traversal. -/
theorem contrib_eq_sum_indexPairs (f : α → α → α) (m : PointMap α) (k : Nat) :
    m.contrib f k = (m.indexPairs.map fun p =>
      if p.1 * m.cols.length + p.2 = k then
        f (m.rect.tl.x + (p.1 : α) * m.spacingX) (m.rect.tl.y + (p.2 : α) * m.spacingY)
      else 0).sum := by
  unfold PointMap.contrib PointMap.indexPairs
  induction m.rows with
  | nil => simp
  | cons r rs ih =>
    simp only [List.map_cons, List.sum_cons, List.flatMap_cons, List.map_append,
      List.sum_append, List.map_map]
    rw [ih]
    rfl

/-- C16: within one `accumulate(f)` call the order of the cell updates does
not matter.  The sequential nested traversal is the per-cell update applied
along the index pairs in row-major order; applying it along any permutation of
those pairs, or handing the outer traversal any permutation of the rows,
gives the same map, for every state of the map and every field. -/
theorem accumulate_order_independent (f : α → α → α) (m : PointMap α) :
    m.applyCells f m.indexPairs = m.accumulate f ∧
    (∀ ps : List (Nat × Nat), ps.Perm m.indexPairs →
      m.applyCells f ps = m.accumulate f) ∧
    (∀ rs : List Nat, rs.Perm m.rows → m.accumulateRows f rs = m.accumulate f) := by
  obtain ⟨a1, a2, a3, a4, a5, a6⟩ := accumulate_spec f m
  have hpairs : ∀ ps : List (Nat × Nat), ps.Perm m.indexPairs →
      m.applyCells f ps = m.accumulate f := by
    intro ps hperm
    obtain ⟨h1, h2, h3, h4, h5, h6⟩ := applyCells_spec f ps m
    refine PointMap.ext_fields (h1.trans a1.symm) (h2.trans a2.symm) (h3.trans a3.symm)
      (h4.trans a4.symm) (h5.trans a5.symm) ?_
    apply List.ext_getElem?
    intro k
    rw [h6 k, a6 k, contrib_eq_sum_indexPairs, (hperm.map _).sum_eq]
  refine ⟨hpairs _ (List.Perm.refl _), hpairs, ?_⟩
  intro rs hperm
  obtain ⟨h1, h2, h3, h4, h5, h6⟩ := foldl_rowUpdate f rs m
  refine PointMap.ext_fields (h1.trans a1.symm) (h2.trans a2.symm) (h3.trans a3.symm)
    (h4.trans a4.symm) (h5.trans a5.symm) ?_
  apply List.ext_getElem?
  intro k
  have hk := h6 k
  simp only [PointMap.accumulateRows]
  rw [hk, a6 k]
  unfold PointMap.contrib
  rw [(hperm.map _).sum_eq]

/-- C16 on a 2 by 2 map: the four cells visited in reverse order, and the two
rows handed over in reverse order. -/
theorem accumulate_order_independent_witness :
    ([(1, 1), (1, 0), (0, 1), (0, 0)] : List (Nat × Nat)).Perm
      (PointMap.new (⟨⟨0, 0⟩, ⟨2, 2⟩⟩ : Rect ℚ) 2 2 (fun _ => 0)).indexPairs ∧
    ([1, 0] : List Nat).Perm
      (PointMap.new (⟨⟨0, 0⟩, ⟨2, 2⟩⟩ : Rect ℚ) 2 2 (fun _ => 0)).rows ∧
    (PointMap.new (⟨⟨0, 0⟩, ⟨2, 2⟩⟩ : Rect ℚ) 2 2 (fun _ => 0)).applyCells
        (fun x y => x + 10 * y) [(1, 1), (1, 0), (0, 1), (0, 0)] =
      (PointMap.new (⟨⟨0, 0⟩, ⟨2, 2⟩⟩ : Rect ℚ) 2 2 (fun _ => 0)).accumulate
        (fun x y => x + 10 * y) ∧
    (PointMap.new (⟨⟨0, 0⟩, ⟨2, 2⟩⟩ : Rect ℚ) 2 2 (fun _ => 0)).accumulateRows
        (fun x y => x + 10 * y) [1, 0] =
      (PointMap.new (⟨⟨0, 0⟩, ⟨2, 2⟩⟩ : Rect ℚ) 2 2 (fun _ => 0)).accumulate
        (fun x y => x + 10 * y) := by
  have hp : ([(1, 1), (1, 0), (0, 1), (0, 0)] : List (Nat × Nat)).Perm
      (PointMap.new (⟨⟨0, 0⟩, ⟨2, 2⟩⟩ : Rect ℚ) 2 2 (fun _ => 0)).indexPairs := by
    have : (PointMap.new (⟨⟨0, 0⟩, ⟨2, 2⟩⟩ : Rect ℚ) 2 2 (fun _ => 0)).indexPairs =
        [(0, 0), (0, 1), (1, 0), (1, 1)] := by
      simp [PointMap.indexPairs, PointMap.new, List.range_succ]
    rw [this]
    decide
  have hr : ([1, 0] : List Nat).Perm
      (PointMap.new (⟨⟨0, 0⟩, ⟨2, 2⟩⟩ : Rect ℚ) 2 2 (fun _ => 0)).rows := by
    have : (PointMap.new (⟨⟨0, 0⟩, ⟨2, 2⟩⟩ : Rect ℚ) 2 2 (fun _ => 0)).rows = [0, 1] := by
      simp [PointMap.new, List.range_succ]
    rw [this]
    decide
  exact ⟨hp, hr,
    (accumulate_order_independent (fun x y => x + 10 * y)
      (PointMap.new (⟨⟨0, 0⟩, ⟨2, 2⟩⟩ : Rect ℚ) 2 2 (fun _ => 0))).2.1 _ hp,
    (accumulate_order_independent (fun x y => x + 10 * y)
      (PointMap.new (⟨⟨0, 0⟩, ⟨2, 2⟩⟩ : Rect ℚ) 2 2 (fun _ => 0))).2.2 _ hr⟩

end CellOrder

/-! ## The program as a whole -/

section Program

variable {α : Type} [LinearOrderedField α]

/-- The index vectors of the map never change during the run. -/
theorem afterTicks_map_shape (lm : CMath α) (grid : Circle α) (dt : α) (s0 : SimState α)
    (n : Nat) :
    (afterTicks lm grid dt n s0).map.rows = s0.map.rows ∧
    (afterTicks lm grid dt n s0).map.cols = s0.map.cols := by
  induction n with
  | zero => exact ⟨rfl, rfl⟩
  | succ n ih =>
    have hmap : (afterTicks lm grid dt (n + 1) s0).map =
        (afterTicks lm grid dt n s0).map.accumulate
          (maskedField lm grid (afterTicks lm grid dt (n + 1) s0).beam dt) := by
      rw [afterTicks_succ]; rfl
    obtain ⟨_, _, _, g4, g5, _⟩ := accumulate_spec
      (maskedField lm grid (afterTicks lm grid dt (n + 1) s0).beam dt)
      (afterTicks lm grid dt n s0).map
    rw [hmap]
    exact ⟨g4.trans ih.1, g5.trans ih.2⟩

/-- Whatever the parameters, the dump of a run of `main` has 50 times 50 cell
lines followed by one blank line. -/
theorem run_writeLines (lm : CMath α) (startHeight gridRadius dt : α) (beam : Beam α)
    (heap : Nat → α) (n : Nat) :
    (afterTicks lm (detector gridRadius) dt n
        (initState startHeight gridRadius beam heap)).map.writeLines.length = 50 * 50 + 1 ∧
    (afterTicks lm (detector gridRadius) dt n
        (initState startHeight gridRadius beam heap)).map.writeLines.getLast? =
      some OutLine.blank ∧
    (∀ l ∈ (afterTicks lm (detector gridRadius) dt n
        (initState startHeight gridRadius beam heap)).map.writeLines.dropLast,
      ∃ x y v, l = OutLine.cell x y v) := by
  obtain ⟨h4, h5⟩ := afterTicks_map_shape lm (detector gridRadius) dt
    (initState startHeight gridRadius beam heap) n
  obtain ⟨_, _, _, n4, n5, _⟩ := new_shape (outerSquare (detector gridRadius)) 50 50 heap
  have hrows : (afterTicks lm (detector gridRadius) dt n
      (initState startHeight gridRadius beam heap)).map.rows.length = 50 := by
    rw [h4]; exact (congrArg List.length n4).trans (List.length_range 50)
  have hcols : (afterTicks lm (detector gridRadius) dt n
      (initState startHeight gridRadius beam heap)).map.cols.length = 50 := by
    rw [h5]; exact (congrArg List.length n5).trans (List.length_range 50)
  refine ⟨?_, ?_, ?_⟩
  · simp only [PointMap.writeLines, List.length_append, List.length_map, write_length,
      hrows, hcols, List.length_singleton]
  · simp [PointMap.writeLines]
  · intro l hl
    simp only [PointMap.writeLines, List.dropLast_concat, List.mem_map] at hl
    obtain ⟨t, _, rfl⟩ := hl
    exact ⟨_, _, _, rfl⟩

/-- The time loop of the reference scenario (`dt = 1/100`, `endTime = 1`)
returns after 100 passes when given fuel 100. -/
theorem scenario_loop [FloorRing α] (lm : CMath α) (startHeight gridRadius : α)
    (beam : Beam α) (heap : Nat → α) :
    timeLoop lm (detector gridRadius) (1 / 100) 1 100 0
        (initState startHeight gridRadius beam heap) =
      some (100, afterTicks lm (detector gridRadius) (1 / 100) 100
        (initState startHeight gridRadius beam heap)) := by
  have hc : ⌈(1 : α) / (1 / 100)⌉₊ = 100 := by
    rw [show (1 : α) / (1 / 100) = ((100 : Nat) : α) by norm_num, Nat.ceil_natCast]
  have h := timeLoop_ceil lm (detector gridRadius) (1 / 100) 1
    (initState startHeight gridRadius beam heap) rfl rfl (by norm_num) 100 (by rw [hc])
  rw [hc] at h
  exact h

/-- The program on the reference scenario with four positional arguments:
`100 0.01 1 c`. -/
theorem scenario_main_four [FloorRing α] (lm : CMath α) (heap : Nat → α) :
    mainProgram scenarioAtof scenarioAtoi lm heap 100
        ["radiationPattern", "100", "0.01", "1", "c"] =
      some (0, [OutLine.number 5] ++
        (afterTicks lm (detector (15 / 100 : α)) (1 / 100) 100
          (initState 100 (15 / 100)
            (.circle (CircleBeam.new ⟨0, 0⟩ 1 2)) heap)).map.writeLines) := by
  have hch : (firstChar "c").toLower = 'c' := by decide
  simp only [mainProgram, parseParams, scenarioAtof, makeBeam, hch, List.length_cons,
    List.length_nil, List.getD_cons_succ, List.getD_cons_zero]
  simp only [String.reduceEq, if_true, if_false, Nat.reduceAdd, Nat.reduceLT, Nat.lt_irrefl,
    gt_iff_lt]
  rw [scenario_loop]

/-- The program on the reference scenario with all eight positional arguments
and the resolution argument `10`: `100 0.01 1 c 0.15 1 2 10`. -/
theorem scenario_main_eight [FloorRing α] (lm : CMath α) (heap : Nat → α) :
    mainProgram scenarioAtof scenarioAtoi lm heap 100
        ["radiationPattern", "100", "0.01", "1", "c", "0.15", "1", "2", "10"] =
      some (0, [OutLine.number 9] ++
        (afterTicks lm (detector (15 / 100 : α)) (1 / 100) 100
          (initState 100 (15 / 100)
            (.circle (CircleBeam.new ⟨0, 0⟩ 1 2)) heap)).map.writeLines) := by
  have hch : (firstChar "c").toLower = 'c' := by decide
  simp only [mainProgram, parseParams, scenarioAtof, makeBeam, hch, List.length_cons,
    List.length_nil, List.getD_cons_succ, List.getD_cons_zero]
  simp only [String.reduceEq, if_true, if_false, Nat.reduceAdd, Nat.reduceLT, Nat.lt_irrefl,
    gt_iff_lt]
  rw [scenario_loop]

/-- C11, the code on the arguments `100 0.01 1 c 0.15 1 2 10`: the eighth
argument is read as `res = 10`, but the run dumps 50 times 50 cell lines, not
10 times 10. -/
theorem resolution_argument_ignored [FloorRing α] (lm : CMath α) (heap : Nat → α) :
    (parseParams scenarioAtof scenarioAtoi
      ["radiationPattern", "100", "0.01", "1", "c", "0.15", "1", "2", "10"] : Params α).res
      = 10 ∧
    (∃ cells : List (OutLine α),
      mainProgram scenarioAtof scenarioAtoi lm heap 100
          ["radiationPattern", "100", "0.01", "1", "c", "0.15", "1", "2", "10"] =
        some (0, [OutLine.number 9] ++ (cells ++ [OutLine.blank])) ∧
      cells.length = 50 * 50 ∧ (∀ l ∈ cells, ∃ x y v, l = OutLine.cell x y v)) ∧
    50 * 50 ≠ 10 * 10 := by
  refine ⟨?_, ?_, by decide⟩
  · simp [parseParams, scenarioAtoi]
  · obtain ⟨hlen, _, hcell⟩ := run_writeLines lm 100 (15 / 100 : α) (1 / 100)
      (.circle (CircleBeam.new ⟨0, 0⟩ 1 2)) heap 100
    refine ⟨(afterTicks lm (detector (15 / 100 : α)) (1 / 100) 100
      (initState 100 (15 / 100)
        (.circle (CircleBeam.new ⟨0, 0⟩ 1 2)) heap)).map.writeLines.dropLast, ?_, ?_, hcell⟩
    · rw [scenario_main_eight]
      simp [PointMap.writeLines]
    · rw [List.length_dropLast, hlen]

/-- The shape of the output on the arguments `100 0.01 1 c`. -/
theorem scenario_output_shape [FloorRing α] (lm : CMath α) (heap : Nat → α) :
    ∃ out : List (OutLine α),
      mainProgram scenarioAtof scenarioAtoi lm heap 100
          ["radiationPattern", "100", "0.01", "1", "c"] = some (0, out) ∧
      out.head? = some (OutLine.number 5) ∧ out.length = 50 * 50 + 2 := by
  obtain ⟨hlen, _, _⟩ := run_writeLines lm 100 (15 / 100 : α)
    (1 / 100) (.circle (CircleBeam.new ⟨0, 0⟩ 1 2)) heap 100
  refine ⟨_, scenario_main_four _ _, rfl, ?_⟩
  rw [List.length_append, hlen]
  rfl

/-- C12 as stated fails: on the arguments `100 0.01 1 c` the first line of the
output is the number 5 (the value of `argc`), and the output has 50*50 + 2
lines, one more than the cell lines and the blank line. -/
theorem stdout_starts_with_argc :
    ∃ out : List (OutLine ℝ),
      mainProgram scenarioAtof scenarioAtoi ⟨Real.sqrt, Real.exp, Real.pi⟩ (fun _ => 0) 100
          ["radiationPattern", "100", "0.01", "1", "c"] = some (0, out) ∧
      out.head? = some (OutLine.number 5) ∧ out.length = 50 * 50 + 2 :=
  scenario_output_shape ⟨Real.sqrt, Real.exp, Real.pi⟩ (fun _ => 0)

/-- C12 amended: the output of a run that returns 0 is one line with `argc`,
then exactly one line `x y value` per grid cell (50*50 lines), then one blank
line, and nothing else. -/
theorem stdout_structure (atof : String → α) (atoi : String → Int) (lm : CMath α)
    (heap : Nat → α) (fuel : Nat) (argv : List String) (out : List (OutLine α))
    (h : mainProgram atof atoi lm heap fuel argv = some (0, out)) :
    ∃ cells : List (OutLine α),
      out = [OutLine.number argv.length] ++ (cells ++ [OutLine.blank]) ∧
      cells.length = 50 * 50 ∧ (∀ l ∈ cells, ∃ x y v, l = OutLine.cell x y v) := by
  obtain ⟨n, beam, hout⟩ := mainProgram_success atof atoi lm heap fuel argv out h
  obtain ⟨hlen, _, hcell⟩ := run_writeLines lm (parseParams atof atoi argv).startHeight
    (parseParams atof atoi argv).gridRadius (parseParams atof atoi argv).dt beam heap n
  refine ⟨(afterTicks lm (detector (parseParams atof atoi argv).gridRadius)
    (parseParams atof atoi argv).dt n
    (initState (parseParams atof atoi argv).startHeight
      (parseParams atof atoi argv).gridRadius beam heap)).map.writeLines.dropLast,
    ?_, ?_, hcell⟩
  · rw [hout]
    simp [PointMap.writeLines]
  · rw [List.length_dropLast, hlen]

/-- C12 amended, on the arguments `100 0.01 1 c`. -/
theorem stdout_structure_witness :
    mainProgram scenarioAtof scenarioAtoi ⟨Real.sqrt, Real.exp, Real.pi⟩ (fun _ => 0) 100
        ["radiationPattern", "100", "0.01", "1", "c"] =
      some (0, [OutLine.number 5] ++
        (afterTicks ⟨Real.sqrt, Real.exp, Real.pi⟩ (detector (15 / 100 : ℝ)) (1 / 100) 100
          (initState 100 (15 / 100)
            (.circle (CircleBeam.new ⟨0, 0⟩ 1 2)) (fun _ => 0))).map.writeLines) ∧
    ∃ cells : List (OutLine ℝ),
      [OutLine.number 5] ++
        (afterTicks ⟨Real.sqrt, Real.exp, Real.pi⟩ (detector (15 / 100 : ℝ)) (1 / 100) 100
          (initState 100 (15 / 100)
            (.circle (CircleBeam.new ⟨0, 0⟩ 1 2)) (fun _ => 0))).map.writeLines =
        [OutLine.number
          (["radiationPattern", "100", "0.01", "1", "c"] : List String).length] ++
          (cells ++ [OutLine.blank]) ∧
      cells.length = 50 * 50 ∧ (∀ l ∈ cells, ∃ x y v, l = OutLine.cell x y v) :=
  ⟨scenario_main_four _ _,
    stdout_structure scenarioAtof scenarioAtoi ⟨Real.sqrt, Real.exp, Real.pi⟩ (fun _ => 0) 100
      ["radiationPattern", "100", "0.01", "1", "c"] _ (scenario_main_four _ _)⟩

/-- The beam height in the reference scenario after `n` passes. -/
theorem scenario_position (lm : CMath α) (gridRadius : α) (beam : Beam α) (heap : Nat → α)
    (n : Nat) :
    (afterTicks lm (detector gridRadius) (1 / 100) n
        (initState 100 gridRadius beam heap)).beamPosition =
      100 - 981 / 10000 * ((n : α) * ((n : α) + 1) / 2) := by
  rw [(afterTicks_kinematics lm (detector gridRadius) (1 / 100)
    (initState 100 gridRadius beam heap) rfl rfl n).2.2]
  simp only [initState]
  ring

/-- In the reference scenario the beam centre is above 2.88 up to tick 44 and
below -1.53 from tick 45 on. -/
theorem scenario_position_gap (lm : CMath α) (gridRadius : α) (beam : Beam α)
    (heap : Nat → α) (n : Nat) :
    2881 / 1000 ≤ (afterTicks lm (detector gridRadius) (1 / 100) n
        (initState 100 gridRadius beam heap)).beamPosition ∨
    (afterTicks lm (detector gridRadius) (1 / 100) n
        (initState 100 gridRadius beam heap)).beamPosition ≤ -15335 / 10000 := by
  rw [scenario_position]
  rcases Nat.lt_or_ge n 45 with h | h
  · left
    have h1 : (n : α) ≤ 44 := by exact_mod_cast Nat.lt_succ_iff.mp h
    have h0 : (0 : α) ≤ (n : α) := Nat.cast_nonneg n
    nlinarith
  · right
    have h1 : (45 : α) ≤ (n : α) := by exact_mod_cast h
    nlinarith

/-- A disk of radius 1 centred on the vertical axis at height at least 2.881
or at most -1.5335 has no point in common with the detector disk of radius
0.15 around the origin. -/
theorem no_overlap_of_gap (y : α) (hy : 2881 / 1000 ≤ y ∨ y ≤ -15335 / 10000)
    (p : Point α) (hp : (detector (15 / 100 : α)).contains p = true) :
    (Circle.mk ⟨0, y⟩ 1).contains p = false := by
  simp only [detector, Circle.contains, decide_eq_true_eq, decide_eq_false_iff_not, not_lt]
    at hp ⊢
  have hx := mul_self_nonneg p.x
  have hy2 : p.y * p.y < (15 / 100) * (15 / 100) := by nlinarith
  have hlo : -(15 / 100) < p.y := by
    by_contra h
    push_neg at h
    nlinarith
  have hhi : p.y < 15 / 100 := by
    by_contra h
    push_neg at h
    nlinarith
  rcases hy with h | h
  · nlinarith
  · nlinarith

/-- In the reference scenario from zeroed storage every cell holds 0 after any
number of passes. -/
theorem scenario_cells_zero (lm : CMath α) (n : Nat) {i j : Nat} (hi : i < 50) (hj : j < 50) :
    (afterTicks lm (detector (15 / 100 : α)) (1 / 100) n
      (initState 100 (15 / 100) (.circle (CircleBeam.new ⟨0, 0⟩ 1 2))
        (fun _ => 0))).map.cell i j = some 0 := by
  rw [(afterTicks_cell_sum lm 100 (15 / 100 : α) (1 / 100)
    (.circle (CircleBeam.new ⟨0, 0⟩ 1 2)) (fun _ => 0) (fun _ _ => rfl) hi hj n).2]
  refine congrArg some (List.sum_eq_zero ?_)
  intro v hv
  simp only [List.mem_map, List.mem_range] at hv
  obtain ⟨k, _, rfl⟩ := hv
  rw [afterTicks_circle_beam lm (detector (15 / 100 : α)) (1 / 100)
    (initState 100 (15 / 100) (.circle (CircleBeam.new ⟨0, 0⟩ 1 2)) (fun _ => 0))
    (CircleBeam.new ⟨0, 0⟩ 1 2) rfl k]
  by_cases hin : (detector (15 / 100 : α)).contains
      ((initState (100 : α) (15 / 100) (.circle (CircleBeam.new ⟨0, 0⟩ 1 2))
        (fun _ => 0)).map.samplePoint i j) = true
  · have hmf := maskedField_circle lm (detector (15 / 100 : α))
      ⟨0, (afterTicks lm (detector (15 / 100 : α)) (1 / 100) (k + 1)
        (initState 100 (15 / 100) (.circle (CircleBeam.new ⟨0, 0⟩ 1 2))
          (fun _ => 0))).beamPosition⟩ 1 2 (1 / 100) _ hin
    have hno := no_overlap_of_gap _
      (scenario_position_gap lm (15 / 100 : α) (.circle (CircleBeam.new ⟨0, 0⟩ 1 2))
        (fun _ => 0) (k + 1)) _ hin
    rw [hno] at hmf
    exact hmf
  · simp only [maskedField]
    rw [if_neg]
    exact hin

/-- C20: the reference scenario (start height 100, `dt = 0.01`, `endTime = 1`,
circle beam of radius 1 and intensity 2, detector radius 0.15, 50 by 50 map,
zeroed storage) in exact arithmetic.  The loop makes 100 passes; the beam
centre is at height 2.881 after tick 44 and -1.5335 after tick 45; at no tick
does the disk of the beam share a point with the detector circle; and every
cell of the final map, hence every dumped value, is 0. -/
theorem scenario_dose_map_zero [FloorRing α] (lm : CMath α) :
    timeLoop lm (detector (15 / 100 : α)) (1 / 100) 1 100 0
        (initState 100 (15 / 100) (.circle (CircleBeam.new ⟨0, 0⟩ 1 2)) (fun _ => 0)) =
      some (100, afterTicks lm (detector (15 / 100 : α)) (1 / 100) 100
        (initState 100 (15 / 100) (.circle (CircleBeam.new ⟨0, 0⟩ 1 2)) (fun _ => 0))) ∧
    (afterTicks lm (detector (15 / 100 : α)) (1 / 100) 44
      (initState 100 (15 / 100) (.circle (CircleBeam.new ⟨0, 0⟩ 1 2))
        (fun _ => 0))).beamPosition = 2881 / 1000 ∧
    (afterTicks lm (detector (15 / 100 : α)) (1 / 100) 45
      (initState 100 (15 / 100) (.circle (CircleBeam.new ⟨0, 0⟩ 1 2))
        (fun _ => 0))).beamPosition = -15335 / 10000 ∧
    (∀ (n : Nat) (p : Point α), (detector (15 / 100 : α)).contains p = true →
      (Circle.mk ⟨0, (afterTicks lm (detector (15 / 100 : α)) (1 / 100) n
        (initState 100 (15 / 100) (.circle (CircleBeam.new ⟨0, 0⟩ 1 2))
          (fun _ => 0))).beamPosition⟩ 1).contains p = false) ∧
    (∀ i j, i < 50 → j < 50 →
      (afterTicks lm (detector (15 / 100 : α)) (1 / 100) 100
        (initState 100 (15 / 100) (.circle (CircleBeam.new ⟨0, 0⟩ 1 2))
          (fun _ => 0))).map.cell i j = some 0) ∧
    (∀ t ∈ (afterTicks lm (detector (15 / 100 : α)) (1 / 100) 100
        (initState 100 (15 / 100) (.circle (CircleBeam.new ⟨0, 0⟩ 1 2))
          (fun _ => 0))).map.write, t.2.2 = 0) := by
  refine ⟨scenario_loop lm 100 (15 / 100) _ _, ?_, ?_, ?_, ?_, ?_⟩
  · rw [scenario_position]; norm_num
  · rw [scenario_position]; norm_num
  · intro n p hp
    exact no_overlap_of_gap _ (scenario_position_gap lm _ _ _ n) p hp
  · intro i j hi hj
    exact scenario_cells_zero lm 100 hi hj
  · intro t ht
    obtain ⟨h4, h5⟩ := afterTicks_map_shape lm (detector (15 / 100 : α)) (1 / 100)
      (initState 100 (15 / 100) (.circle (CircleBeam.new ⟨0, 0⟩ 1 2)) (fun _ => 0)) 100
    obtain ⟨_, _, _, n4, n5, _⟩ :=
      new_shape (outerSquare (detector (15 / 100 : α))) 50 50 (fun _ => 0)
    have hrows : (afterTicks lm (detector (15 / 100 : α)) (1 / 100) 100
        (initState 100 (15 / 100) (.circle (CircleBeam.new ⟨0, 0⟩ 1 2))
          (fun _ => 0))).map.rows.length = 50 := by
      rw [h4]; exact (congrArg List.length n4).trans (List.length_range 50)
    have hcols : (afterTicks lm (detector (15 / 100 : α)) (1 / 100) 100
        (initState 100 (15 / 100) (.circle (CircleBeam.new ⟨0, 0⟩ 1 2))
          (fun _ => 0))).map.cols.length = 50 := by
      rw [h5]; exact (congrArg List.length n5).trans (List.length_range 50)
    simp only [PointMap.write, List.mem_flatMap, List.mem_map, List.mem_range] at ht
    obtain ⟨i, hi, j, hj, rfl⟩ := ht
    rw [hcols] at hi
    rw [hrows] at hj
    have hcell := scenario_cells_zero lm 100 hi hj
    simp only [PointMap.cell, hcols] at hcell
    simp only [hrows]
    rw [List.getD_eq_getElem?_getD, hcell]
    rfl

/-- C20 at tick 44, the origin, and the centre cell (25, 25). -/
theorem scenario_dose_map_zero_witness :
    (detector (15 / 100 : ℝ)).contains ⟨0, 0⟩ = true ∧ 25 < 50 ∧
    (Circle.mk ⟨0, (afterTicks ⟨Real.sqrt, Real.exp, Real.pi⟩ (detector (15 / 100 : ℝ))
      (1 / 100) 44
      (initState 100 (15 / 100) (.circle (CircleBeam.new ⟨0, 0⟩ 1 2))
        (fun _ => 0))).beamPosition⟩ 1).contains ⟨0, 0⟩ = false ∧
    (afterTicks ⟨Real.sqrt, Real.exp, Real.pi⟩ (detector (15 / 100 : ℝ)) (1 / 100) 100
      (initState 100 (15 / 100) (.circle (CircleBeam.new ⟨0, 0⟩ 1 2))
        (fun _ => 0))).map.cell 25 25 = some 0 := by
  have hp : (detector (15 / 100 : ℝ)).contains ⟨0, 0⟩ = true := by
    simp only [detector, Circle.contains, decide_eq_true_eq]
    norm_num
  exact ⟨hp, by norm_num,
    (scenario_dose_map_zero ⟨Real.sqrt, Real.exp, Real.pi⟩).2.2.2.1 44 ⟨0, 0⟩ hp,
    (scenario_dose_map_zero ⟨Real.sqrt, Real.exp, Real.pi⟩).2.2.2.2.1 25 25
      (by norm_num) (by norm_num)⟩

end Program

/-! ## The program in double precision -/

/-- C14 as stated fails in `double`: from the baseline 2, `changeIntensity(0.1)`
followed by `changeIntensity(0.2)` leaves the baseline 2.3000000000000003,
while `changeIntensity(0.1 + 0.2)` leaves 2.3. -/
theorem changeIntensity_double_not_additive :
    Beam.changeIntensity (Beam.changeIntensity (.circle ⟨⟨⟨0, 0⟩, 1⟩, 2⟩ : Beam Dbl) (1 / 10))
        (2 / 10) = .circle ⟨⟨⟨0, 0⟩, 1⟩, .fin false 5179139571476071 (-51)⟩ ∧
    Beam.changeIntensity (.circle ⟨⟨⟨0, 0⟩, 1⟩, 2⟩ : Beam Dbl) (1 / 10 + 2 / 10) =
      .circle ⟨⟨⟨0, 0⟩, 1⟩, .fin false 5179139571476070 (-51)⟩ ∧
    Beam.changeIntensity (Beam.changeIntensity (.circle ⟨⟨⟨0, 0⟩, 1⟩, 2⟩ : Beam Dbl) (1 / 10))
        (2 / 10) ≠
      Beam.changeIntensity (.circle ⟨⟨⟨0, 0⟩, 1⟩, 2⟩ : Beam Dbl) (1 / 10 + 2 / 10) := by
  decide!

/-- C18 as stated fails in `double`: the circle of radius 0.1 around (1, 0)
contains the point (0.9, 0), but the left edge of its `outerSquare` is at
`1 - 0.1 = 0.9`, not strictly left of the point; and for the circle of radius
0.1 around (0.3, 0) the width of `outerSquare` is 0.20000000000000004, not
`2 * 0.1`. -/
theorem outerSquare_double_not_covering :
    (⟨⟨1, 0⟩, 1 / 10⟩ : Circle Dbl).contains ⟨9 / 10, 0⟩ = true ∧
    (0 : Dbl) < 1 / 10 ∧
    (outerSquare (⟨⟨1, 0⟩, 1 / 10⟩ : Circle Dbl)).tl.x = 9 / 10 ∧
    ¬ ((outerSquare (⟨⟨1, 0⟩, 1 / 10⟩ : Circle Dbl)).tl.x < (9 / 10 : Dbl)) ∧
    (outerSquare (⟨⟨3 / 10, 0⟩, 1 / 10⟩ : Circle Dbl)).width =
      .fin false 7205759403792795 (-55) ∧
    (2 * (1 / 10) : Dbl) = .fin false 7205759403792794 (-55) ∧
    (outerSquare (⟨⟨3 / 10, 0⟩, 1 / 10⟩ : Circle Dbl)).width ≠ 2 * (1 / 10) := by
  decide!

/-- C15 as stated fails in `double`: over the rectangle from (2^53, 0) to
(2^53 + 2, 1), of width 2 and height 1, a fresh map with 2 columns and 1 row
has spacing 1 in `x`, and `write` prints the coordinate pair (2^53, 0) twice,
because `2^53 + 1` rounds to `2^53`. -/
theorem write_double_duplicate_coordinates :
    (⟨⟨9007199254740992, 0⟩, ⟨9007199254740994, 1⟩⟩ : Rect Dbl).width = 2 ∧
    (⟨⟨9007199254740992, 0⟩, ⟨9007199254740994, 1⟩⟩ : Rect Dbl).height = 1 ∧
    (2 : Dbl) ≠ 0 ∧ (1 : Dbl) ≠ 0 ∧
    ((PointMap.new (⟨⟨9007199254740992, 0⟩, ⟨9007199254740994, 1⟩⟩ : Rect Dbl) 2 1
        (fun _ => 0)).write.map fun t => (t.1, t.2.1)) =
      [(9007199254740992, 0), (9007199254740992, 0)] ∧
    ¬ ((PointMap.new (⟨⟨9007199254740992, 0⟩, ⟨9007199254740994, 1⟩⟩ : Rect Dbl) 2 1
        (fun _ => 0)).write.map fun t => (t.1, t.2.1)).Nodup := by
  decide!

/-- The cell (25, 25) of the map of `main` after `n` passes of a run in
`double` from zeroed storage, for a detector of radius 0.15. -/
theorem double_run_cell (dt : Dbl) (startHeight : Dbl) (beam : Beam Dbl) (n : Nat) :
    (afterTicks Dbl.cmathUnused (detector (15 / 100)) dt n
        (initState startHeight (15 / 100) beam (fun _ => 0))).map.cell 25 25 =
      some ((List.range n).foldl (fun acc k =>
        acc + maskedField Dbl.cmathUnused (detector (15 / 100))
          (afterTicks Dbl.cmathUnused (detector (15 / 100)) dt (k + 1)
            (initState startHeight (15 / 100) beam (fun _ => 0))).beam dt
          ((initState startHeight (15 / 100) beam (fun _ => 0)).map.rect.tl.x
            + ((25 : Nat) : Dbl) * (initState startHeight (15 / 100) beam
              (fun _ => 0)).map.spacingX)
          ((initState startHeight (15 / 100) beam (fun _ => 0)).map.rect.tl.y
            + ((25 : Nat) : Dbl) * (initState startHeight (15 / 100) beam
              (fun _ => 0)).map.spacingY)) 0) := by
  obtain ⟨_, _, _, n4, n5, _⟩ :=
    new_shape (outerSquare (detector (15 / 100 : Dbl))) 50 50 (fun _ => 0)
  have hv : (initState startHeight (15 / 100 : Dbl) beam (fun _ => 0)).map.data[25 * 50 + 25]?
      = some 0 :=
    new_data (outerSquare (detector (15 / 100 : Dbl))) 50 50 (fun _ => 0) (by decide)
  obtain ⟨_, _, _, _, h5, h6⟩ := afterTicks_cell_any Dbl.cmathUnused (detector (15 / 100)) dt
    (initState startHeight (15 / 100) beam (fun _ => 0)) 50 50 n4 n5
    (by decide : 25 < 50) (by decide : 25 < 50) 0 hv n
  have hlen : (afterTicks Dbl.cmathUnused (detector (15 / 100)) dt n
      (initState startHeight (15 / 100) beam (fun _ => 0))).map.cols.length = 50 := by
    rw [h5]
    exact (congrArg List.length n5).trans (List.length_range 50)
  unfold PointMap.cell
  rw [hlen]
  exact h6

/-- C10 as stated fails in `double`.  With `I = 2`, `dt = 0.1`, `endTime = 1`,
start height 0 and a beam of radius 10^6, the loop makes 11 passes, the centre
cell (25, 25) is inside the detector and inside the disk of the beam at all 11
ticks, and its final dose is 2.1999999999999997, which is not `I * dt * 11`
(2.2).  With `I = dt = endTime = 2^-600` and a beam of radius 1 the loop makes
one pass, the centre cell is inside the detector and the disk of the beam at
that tick, and its final dose is 0, which is not positive. -/
theorem dose_double_counterexample :
    ((0 : Dbl) < 2 ∧ (0 : Dbl) < 1 / 10 ∧
      timeLoop Dbl.cmathUnused (detector (15 / 100)) (1 / 10) 1 11 0 Dbl.wideBeamInit =
        some (11, afterTicks Dbl.cmathUnused (detector (15 / 100)) (1 / 10) 11
          Dbl.wideBeamInit) ∧
      (detector (15 / 100 : Dbl)).contains (Dbl.wideBeamInit.map.samplePoint 25 25) = true ∧
      hitCount Dbl.cmathUnused (detector (15 / 100)) (1 / 10) Dbl.wideBeamInit 1000000
        (Dbl.wideBeamInit.map.samplePoint 25 25) 11 = 11 ∧
      (afterTicks Dbl.cmathUnused (detector (15 / 100)) (1 / 10) 11
        Dbl.wideBeamInit).map.cell 25 25 = some (.fin false 4953959590107545 (-51)) ∧
      (2 * (1 / 10) * ((11 : Nat) : Dbl) : Dbl) = .fin false 4953959590107546 (-51)) ∧
    ((0 : Dbl) < Dbl.tiny ∧
      timeLoop Dbl.cmathUnused (detector (15 / 100)) Dbl.tiny Dbl.tiny 1 0 Dbl.faintBeamInit =
        some (1, afterTicks Dbl.cmathUnused (detector (15 / 100)) Dbl.tiny 1
          Dbl.faintBeamInit) ∧
      (detector (15 / 100 : Dbl)).contains (Dbl.faintBeamInit.map.samplePoint 25 25) = true ∧
      hitCount Dbl.cmathUnused (detector (15 / 100)) Dbl.tiny Dbl.faintBeamInit 1
        (Dbl.faintBeamInit.map.samplePoint 25 25) 1 = 1 ∧
      (afterTicks Dbl.cmathUnused (detector (15 / 100)) Dbl.tiny 1
        Dbl.faintBeamInit).map.cell 25 25 = some 0 ∧
      ¬ ((0 : Dbl) < 0)) := by
  refine ⟨⟨by decide!, by decide!, ?_, by decide!, by decide!, ?_, by decide!⟩,
    ⟨by decide!, ?_, by decide!, by decide!, ?_, by decide!⟩⟩
  · exact timeLoop_exact Dbl.cmathUnused (detector (15 / 100)) (1 / 10) 1 Dbl.wideBeamInit 11
      (by decide!) (by decide!) 11 0 11 rfl (Nat.le_refl 11)
  · rw [Dbl.wideBeamInit, double_run_cell]
    decide!
  · exact timeLoop_exact Dbl.cmathUnused (detector (15 / 100)) Dbl.tiny Dbl.tiny
      Dbl.faintBeamInit 1 (by decide!) (by decide!) 1 0 1 rfl (Nat.le_refl 1)
  · rw [Dbl.faintBeamInit, double_run_cell]
    decide!

end RadiationPattern
